import Mathlib

/-!
# Verification of the AI-surveillance service (ai-service)

Shallow embedding of the parts of the `ai-service` Python package that the
verified properties are about:

* `risk/risk_engine.py` — `RiskEngine.calculate_risk`, `get_current_risk`
* `analysis/zone_analyzer.py` — `ZoneAnalyzer.check_intrusions`
* `analysis/loitering_detector.py` — `LoiteringDetector.detect`
* `utils/config.py` — `Config.validate`
* `support/tracker.py` — `ObjectTracker`
* `support/event_detector.py` — `EventDetector.detect_crowd`
* `support/utils.py` — `point_in_polygon`, `bbox_in_polygon`, `bbox_to_center`

Python dictionaries are modelled as association lists (insertion ordered, the
key appearing at most once, as in a Python `dict`); mutation becomes explicit
state passing.  Timestamps (`datetime` differences, `time.time()`) are modelled
as exact rational numbers of seconds.  Where the source compares a Euclidean
distance `sqrt(d)` with a nonnegative threshold `t`, the embedding compares
`d` with `t^2`, which is equivalent since `sqrt` is monotone; this keeps every
definition executable over `ℚ`.
-/

namespace Surveillance

/-! ## Risk engine (`risk/risk_engine.py`) -/

/-- The `RISK_SCORES` dictionary of `utils/config.py` (one integer weight per
scored event type). -/
structure RiskScores where
  restrictedEntry : Int
  unattendedObject : Int
  loitering : Int
deriving Repr, DecidableEq

/-- Default weights: `RISK_RESTRICTED_ENTRY=8`, `RISK_UNATTENDED_OBJECT=7`,
`RISK_LOITERING=6` (`utils/config.py`). -/
def defaultRiskScores : RiskScores := ⟨8, 7, 6⟩

/-- `Config.RISK_LEVEL_LOW` (hard-coded 4 in `utils/config.py`). -/
def RISK_LEVEL_LOW : Int := 4

/-- `Config.RISK_LEVEL_MEDIUM` (hard-coded 8 in `utils/config.py`). -/
def RISK_LEVEL_MEDIUM : Int := 8

/-- An event as consumed by the risk engine.  Of the event dictionaries built
by the detectors, `RiskEngine` reads only `event['type']`, so only that field
is modelled. -/
structure REvent where
  type : String
deriving Repr, DecidableEq

/-- The mutable fields of a `RiskEngine` instance. -/
structure RiskEngineState where
  currentRiskScore : Int
  currentRiskLevel : String
  activeEvents : List REvent
deriving Repr, DecidableEq

/-- `RiskEngine.__init__`: score 0, level `"LOW"`, no active events. -/
def RiskEngine.init : RiskEngineState := ⟨0, "LOW", []⟩

/-- The `if event_type == ... : total_risk += ...` chain in the body of the
loop of `RiskEngine.calculate_risk`; an unrecognised type adds nothing. -/
def eventRisk (scores : RiskScores) (t : String) : Int :=
  if t = "RESTRICTED_ENTRY" then scores.restrictedEntry
  else if t = "UNATTENDED_OBJECT" then scores.unattendedObject
  else if t = "LOITERING" then scores.loitering
  else 0

/-- `RiskEngine.calculate_risk(events)`.  Returns the `(risk_score, risk_level)`
pair together with the updated engine state.  On an empty event list the
source returns early after setting only score and level (`active_events` is
not touched by that branch). -/
def calculate_risk (scores : RiskScores) (s : RiskEngineState)
    (events : List REvent) : (Int × String) × RiskEngineState :=
  if events = [] then
    ((0, "LOW"), { s with currentRiskScore := 0, currentRiskLevel := "LOW" })
  else
    let total_risk := events.foldl (fun acc e => acc + eventRisk scores e.type) 0
    let risk_level :=
      if total_risk ≤ RISK_LEVEL_LOW then "LOW"
      else if total_risk ≤ RISK_LEVEL_MEDIUM then "MEDIUM"
      else "HIGH"
    ((total_risk, risk_level),
     { currentRiskScore := total_risk, currentRiskLevel := risk_level,
       activeEvents := events })

/-- `RiskEngine.get_current_risk`: the `(score, level, event_count)` triple. -/
def get_current_risk (s : RiskEngineState) : Int × String × Nat :=
  (s.currentRiskScore, s.currentRiskLevel, s.activeEvents.length)

/-- The score as the claim states it: the sum over the events of the
configured weight of their type. -/
def claimScore (scores : RiskScores) (events : List REvent) : Int :=
  (events.map (fun e => eventRisk scores e.type)).sum

/-- The level thresholds as the claim states them. -/
def claimLevel (score : Int) : String :=
  if score ≤ 4 then "LOW" else if score ≤ 8 then "MEDIUM" else "HIGH"

lemma foldl_add_eq_sum_map (f : REvent → Int) (events : List REvent) :
    ∀ acc : Int, events.foldl (fun acc e => acc + f e) acc
      = acc + (events.map f).sum := by
  induction events with
  | nil => intro acc; simp
  | cons e rest ih =>
      intro acc
      simp only [List.foldl_cons, List.map_cons, List.sum_cons, ih]
      ring

lemma calculate_risk_fst (scores : RiskScores) (s : RiskEngineState)
    (events : List REvent) :
    (calculate_risk scores s events).1
      = (claimScore scores events, claimLevel (claimScore scores events)) := by
  rcases events with _ | ⟨e, rest⟩
  · simp [calculate_risk, claimScore, claimLevel]
  · simp only [calculate_risk, claimScore, claimLevel, RISK_LEVEL_LOW,
      RISK_LEVEL_MEDIUM, foldl_add_eq_sum_map, List.map_cons, List.sum_cons,
      zero_add, reduceCtorEq, if_false]

/-- C1: `calculate_risk(events)` returns the sum of the configured weights of
the event types (unrecognised types contribute 0) together with the level
determined by the thresholds `score ≤ 4 → LOW`, `≤ 8 → MEDIUM`, else `HIGH`;
independently of prior engine state, `calculate_risk([])` returns
`(0, "LOW")`, one `LOITERING` event yields `(6, "MEDIUM")`, and one
`RESTRICTED_ENTRY` plus one `UNATTENDED_OBJECT` yields `(15, "HIGH")` under
the default weights. -/
theorem calculate_risk_score_and_level (scores : RiskScores)
    (s : RiskEngineState) (events : List REvent) :
    (calculate_risk scores s events).1
        = (claimScore scores events, claimLevel (claimScore scores events))
      ∧ (calculate_risk defaultRiskScores s []).1 = (0, "LOW")
      ∧ (calculate_risk defaultRiskScores s [⟨"LOITERING"⟩]).1 = (6, "MEDIUM")
      ∧ (calculate_risk defaultRiskScores s
          [⟨"RESTRICTED_ENTRY"⟩, ⟨"UNATTENDED_OBJECT"⟩]).1 = (15, "HIGH") := by
  refine ⟨calculate_risk_fst scores s events, ?_, ?_, ?_⟩
  · simp [calculate_risk]
  · simp [calculate_risk_fst, claimScore, claimLevel, eventRisk,
      defaultRiskScores]
  · simp [calculate_risk_fst, claimScore, claimLevel, eventRisk,
      defaultRiskScores]

/-- C4 counterexample: after a call with one `LOITERING` event followed by a
call with an empty event list, `get_current_risk` reports score 0 and level
`"LOW"` but an event count of 1, not 0 — the empty-list branch of
`calculate_risk` returns early without overwriting `active_events`. -/
theorem empty_tick_keeps_active_events :
    get_current_risk
        (calculate_risk defaultRiskScores
          (calculate_risk defaultRiskScores RiskEngine.init
            [⟨"LOITERING"⟩]).2 []).2
      = (0, "LOW", 1)
    ∧ ((0, "LOW", 1) : Int × String × Nat) ≠ (0, "LOW", 0) := by
  constructor
  · rfl
  · decide

/-- C4 amended: every call to `calculate_risk` overwrites the stored score and
level with the returned pair; the active event list is overwritten only on a
call with a non-empty event list, while a call with an empty list leaves it
unchanged, so a subsequent `get_current_risk` reports score 0 and level
`"LOW"` but the event count of the previously stored list. -/
theorem calculate_risk_state_update (scores : RiskScores)
    (s : RiskEngineState) (events : List REvent) (e : REvent)
    (rest : List REvent) :
    (calculate_risk scores s events).2.currentRiskScore
        = (calculate_risk scores s events).1.1
      ∧ (calculate_risk scores s events).2.currentRiskLevel
        = (calculate_risk scores s events).1.2
      ∧ (calculate_risk scores s (e :: rest)).2.activeEvents = e :: rest
      ∧ (calculate_risk scores s []).2.activeEvents = s.activeEvents
      ∧ get_current_risk (calculate_risk scores s []).2
        = (0, "LOW", s.activeEvents.length) := by
  refine ⟨?_, ?_, ?_, ?_, ?_⟩
  · rcases events with _ | ⟨e', rest'⟩ <;> simp [calculate_risk]
  · rcases events with _ | ⟨e', rest'⟩ <;> simp [calculate_risk]
  · simp [calculate_risk]
  · simp [calculate_risk]
  · simp [calculate_risk, get_current_risk]

/-! ## Configuration validation (`utils/config.py`) -/

/-- The configuration values read by `Config.validate`.  The confidence
threshold is a float in the source, modelled as a rational. -/
structure ConfigV where
  CAMERA_INDEX : Int
  CONFIDENCE_THRESHOLD : ℚ
  LOITERING_THRESHOLD_SECONDS : Int
  UNATTENDED_THRESHOLD_SECONDS : Int
deriving Repr, DecidableEq

/-- The `errors` list accumulated by `Config.validate`: one message per
violated constraint, in source order, none skipped. -/
def configErrors (c : ConfigV) : List String :=
  (if c.CAMERA_INDEX < 0 then ["CAMERA_INDEX must be >= 0"] else [])
    ++ (if c.CONFIDENCE_THRESHOLD < 0 ∨ c.CONFIDENCE_THRESHOLD > 1 then
          ["CONFIDENCE_THRESHOLD must be between 0 and 1"] else [])
    ++ (if c.LOITERING_THRESHOLD_SECONDS < 1 then
          ["LOITERING_THRESHOLD_SECONDS must be > 0"] else [])
    ++ (if c.UNATTENDED_THRESHOLD_SECONDS < 1 then
          ["UNATTENDED_THRESHOLD_SECONDS must be > 0"] else [])

/-- `Config.validate`: raising `ValueError` is modelled as `Except.error`
carrying the message; the message joins all collected errors with `", "`. -/
def Config.validate (c : ConfigV) : Except String Bool :=
  let errors := configErrors c
  if errors = [] then Except.ok true
  else Except.error ("Configuration errors: " ++ String.intercalate ", " errors)

/-- C5: validation collects every violated constraint before reporting — it
succeeds exactly when no constraint is violated, otherwise it fails once with
a message joining all the collected error strings, each violated constraint
contributing its message to the list; a confidence threshold of `1.5`
together with a camera index of `-1` yields a single error naming both. -/
theorem validate_collects_all_errors (c : ConfigV) :
    (Config.validate c = Except.ok true
        ↔ ¬c.CAMERA_INDEX < 0
          ∧ ¬(c.CONFIDENCE_THRESHOLD < 0 ∨ c.CONFIDENCE_THRESHOLD > 1)
          ∧ ¬c.LOITERING_THRESHOLD_SECONDS < 1
          ∧ ¬c.UNATTENDED_THRESHOLD_SECONDS < 1)
      ∧ (Config.validate c = Except.ok true
          ∨ Config.validate c = Except.error
              ("Configuration errors: "
                ++ String.intercalate ", " (configErrors c)))
      ∧ (c.CAMERA_INDEX < 0 ↔ "CAMERA_INDEX must be >= 0" ∈ configErrors c)
      ∧ ((c.CONFIDENCE_THRESHOLD < 0 ∨ c.CONFIDENCE_THRESHOLD > 1)
          ↔ "CONFIDENCE_THRESHOLD must be between 0 and 1" ∈ configErrors c)
      ∧ (c.LOITERING_THRESHOLD_SECONDS < 1
          ↔ "LOITERING_THRESHOLD_SECONDS must be > 0" ∈ configErrors c)
      ∧ (c.UNATTENDED_THRESHOLD_SECONDS < 1
          ↔ "UNATTENDED_THRESHOLD_SECONDS must be > 0" ∈ configErrors c)
      ∧ Config.validate ⟨-1, 3/2, 30, 30⟩
          = Except.error ("Configuration errors: CAMERA_INDEX must be >= 0, "
              ++ "CONFIDENCE_THRESHOLD must be between 0 and 1") := by
  refine ⟨?_, ?_, ?_, ?_, ?_, ?_, ?_⟩
  · unfold Config.validate configErrors
    split_ifs <;> simp_all
  · by_cases h : configErrors c = [] <;> simp [Config.validate, h]
  · unfold configErrors
    split_ifs <;> simp_all
  · unfold configErrors
    split_ifs <;> simp_all
  · unfold configErrors
    split_ifs <;> simp_all
  · unfold configErrors
    split_ifs <;> simp_all
  · simp only [Config.validate, configErrors]
    norm_num
    rfl

/-! ## Geometry helpers (`support/utils.py`) -/

/-- A bounding box `[x1, y1, x2, y2]` in pixel coordinates. -/
structure BBox where
  x1 : Int
  y1 : Int
  x2 : Int
  y2 : Int
deriving Repr, DecidableEq, Inhabited

/-- `bbox_to_center`: `(int((x1+x2)/2), int((y1+y2)/2))`.  Python's `int()`
truncates the (exactly representable) half-integer float toward zero, which
is `Int.tdiv` by 2. -/
def bbox_to_center (bbox : BBox) : Int × Int :=
  (Int.tdiv (bbox.x1 + bbox.x2) 2, Int.tdiv (bbox.y1 + bbox.y2) 2)

/-- One iteration of the ray-casting loop of `point_in_polygon`, for the edge
`p1 → p2`.  Inside the enclosing condition `y > min(p1y,p2y) ∧ y ≤ max(...)`
the source's guard `p1y != p2y` always holds (a horizontal edge makes the
condition unsatisfiable), so `xinters` is computed unconditionally here. -/
def pipEdge (x y : Int) (p1 p2 : Int × Int) (inside : Bool) : Bool :=
  if y > min p1.2 p2.2 ∧ y ≤ max p1.2 p2.2 ∧ x ≤ max p1.1 p2.1 then
    let xinters : ℚ :=
      ((y : ℚ) - (p1.2 : ℚ)) * ((p2.1 : ℚ) - (p1.1 : ℚ))
        / ((p2.2 : ℚ) - (p1.2 : ℚ)) + (p1.1 : ℚ)
    if p1.1 = p2.1 ∨ (x : ℚ) ≤ xinters then !inside else inside
  else inside

/-- `point_in_polygon(point, polygon)`: ray casting over the edge cycle
`(polygon[0], polygon[1]), …, (polygon[n-1], polygon[0])`.  The source
indexes `polygon[0]` unconditionally and raises on an empty polygon; the
empty case is modelled as `false`. -/
def point_in_polygon (point : Int × Int) (polygon : List (Int × Int)) : Bool :=
  match polygon with
  | [] => false
  | p0 :: rest =>
      ((p0 :: rest).zip (rest ++ [p0])).foldl
        (fun inside e => pipEdge point.1 point.2 e.1 e.2 inside) false

/-- `bbox_in_polygon(bbox, polygon, threshold)`: computes the box center
`(int((x1+x2)/2), int((y1+y2)/2))` and tests only that point; the `threshold`
parameter is never read in the body. -/
def bbox_in_polygon (bbox : BBox) (polygon : List (Int × Int))
    (threshold : ℚ) : Bool :=
  let center_x := Int.tdiv (bbox.x1 + bbox.x2) 2
  let center_y := Int.tdiv (bbox.y1 + bbox.y2) 2
  point_in_polygon (center_x, center_y) polygon

/-- C8: for every bounding box, polygon, and threshold, `bbox_in_polygon`
returns exactly `point_in_polygon` at the box's integer midpoint; in
particular the result does not depend on the threshold argument, and no
box/polygon area intersection enters the computation. -/
theorem bbox_in_polygon_is_center_test (bbox : BBox)
    (polygon : List (Int × Int)) (threshold threshold' : ℚ) :
    bbox_in_polygon bbox polygon threshold
        = point_in_polygon (bbox_to_center bbox) polygon
      ∧ bbox_in_polygon bbox polygon threshold
        = bbox_in_polygon bbox polygon threshold' := ⟨rfl, rfl⟩

/-! ## Association-list dictionaries

Python `dict`s are modelled as insertion-ordered association lists.
`dset` updates the value in place when the key is present and appends
otherwise; `ddel` removes the key; iteration order is list order, as in
CPython. -/

section Dict

variable {K : Type} [DecidableEq K] {V : Type}

/-- `list(d.keys())`. -/
def dkeys (l : List (K × V)) : List K := l.map Prod.fst

/-- `d.get(k)` / `d[k]` as an `Option`. -/
def dget (l : List (K × V)) (k : K) : Option V :=
  (l.find? (fun kv => decide (kv.1 = k))).map Prod.snd

/-- `k in d`. -/
def dcontains (l : List (K × V)) (k : K) : Bool :=
  l.any (fun kv => decide (kv.1 = k))

/-- `d[k] = v`. -/
def dset (l : List (K × V)) (k : K) (v : V) : List (K × V) :=
  if dcontains l k then l.map (fun kv => if kv.1 = k then (k, v) else kv)
  else l ++ [(k, v)]

/-- `del d[k]` (a no-op when the key is absent, where CPython would raise). -/
def ddel (l : List (K × V)) (k : K) : List (K × V) :=
  l.filter (fun kv => decide (¬kv.1 = k))

lemma dcontains_iff_mem_dkeys (l : List (K × V)) (k : K) :
    dcontains l k = true ↔ k ∈ dkeys l := by
  simp [dcontains, dkeys, List.any_eq_true]

lemma dget_eq_none_of_not_mem {l : List (K × V)} {k : K}
    (h : k ∉ dkeys l) : dget l k = none := by
  simp only [dget, Option.map_eq_none', List.find?_eq_none]
  intro kv hmem
  simp only [decide_eq_true_eq]
  intro hk
  exact h (hk ▸ List.mem_map_of_mem Prod.fst hmem)

lemma dkeys_dset_of_mem {l : List (K × V)} {k : K} (v : V)
    (h : k ∈ dkeys l) : dkeys (dset l k v) = dkeys l := by
  rw [dset, if_pos ((dcontains_iff_mem_dkeys l k).2 h)]
  simp only [dkeys, List.map_map]
  refine List.map_congr_left ?_
  intro kv _
  by_cases hk : kv.1 = k <;> simp [hk]

lemma dkeys_dset_of_not_mem {l : List (K × V)} {k : K} (v : V)
    (h : k ∉ dkeys l) : dkeys (dset l k v) = dkeys l ++ [k] := by
  rw [dset, if_neg]
  · simp [dkeys]
  · intro hc
    exact h ((dcontains_iff_mem_dkeys l k).1 hc)

lemma dkeys_ddel_eq_filter (l : List (K × V)) (k : K) :
    dkeys (ddel l k) = (dkeys l).filter (fun a => !decide (a = k)) := by
  induction l with
  | nil => rfl
  | cons kv rest ih =>
      by_cases hk : kv.1 = k <;> simp_all [ddel, dkeys, List.filter_cons]

lemma mem_dkeys_ddel {l : List (K × V)} {k a : K} :
    a ∈ dkeys (ddel l k) ↔ a ∈ dkeys l ∧ ¬a = k := by
  rw [dkeys_ddel_eq_filter]
  simp [List.mem_filter]

lemma nodup_dkeys_ddel {l : List (K × V)} (k : K)
    (h : (dkeys l).Nodup) : (dkeys (ddel l k)).Nodup := by
  rw [dkeys_ddel_eq_filter]
  exact h.filter _

end Dict

/-! ## Object tracker (`support/tracker.py`) -/

/-- An entry of `ObjectTracker.objects`:
`{bbox, center, class, first_seen, last_seen}`. -/
structure TrackedObject where
  bbox : BBox
  center : Int × Int
  class_name : String
  first_seen : ℚ
  last_seen : ℚ
deriving Repr, DecidableEq, Inhabited

/-- An entry of `ObjectTracker.object_history`:
`{positions, timestamps, bboxes}`. -/
structure ObjHistory where
  positions : List (Int × Int)
  timestamps : List ℚ
  bboxes : List BBox
deriving Repr, DecidableEq, Inhabited

/-- A detection `{bbox, class, confidence}`; `ObjectTracker.update` reads only
`bbox` and `class`, so only those are modelled. -/
structure Detection where
  bbox : BBox
  class_name : String
deriving Repr, DecidableEq, Inhabited

/-- The fields of an `ObjectTracker` instance.  `time.time()` is supplied to
each mutating call as an explicit `now` argument. -/
structure TrackerState where
  next_object_id : Nat
  objects : List (Nat × TrackedObject)
  disappeared : List (Nat × Nat)
  max_disappeared : Nat
  max_distance : Nat
  object_history : List (Nat × ObjHistory)
deriving Repr, DecidableEq

/-- `utils.calculate_distance` returns `np.sqrt((Δx)² + (Δy)²)`, an irrational
real; the tracker only ever passes distances to comparisons and to `argmin`/
`argsort`, so the embedding abstracts it as a function parameter of this
type. -/
def DistFn : Type := (Int × Int) → (Int × Int) → ℚ

/-- `ObjectTracker.__init__`. -/
def ObjectTracker.init (max_disappeared max_distance : Nat) : TrackerState :=
  ⟨0, [], [], max_disappeared, max_distance, []⟩

/-- `ObjectTracker.register(bbox, class_name)`: assigns `next_object_id`,
fills all three tables, increments the id counter, and returns the id. -/
def ObjectTracker.register (s : TrackerState) (now : ℚ) (bbox : BBox)
    (class_name : String) : Nat × TrackerState :=
  let object_id := s.next_object_id
  let center := bbox_to_center bbox
  (object_id,
   { s with
     objects := dset s.objects object_id ⟨bbox, center, class_name, now, now⟩,
     disappeared := dset s.disappeared object_id 0,
     object_history := dset s.object_history object_id ⟨[center], [now], [bbox]⟩,
     next_object_id := s.next_object_id + 1 })

/-- `ObjectTracker.deregister(object_id)`: removes the id from `objects` and
`disappeared`; history is kept for analysis. -/
def ObjectTracker.deregister (s : TrackerState) (object_id : Nat) :
    TrackerState :=
  { s with
    objects := ddel s.objects object_id,
    disappeared := ddel s.disappeared object_id }

/-- The shared disappearance step of `ObjectTracker.update`: increment the
counter and deregister once it strictly exceeds `max_disappeared` (run both
when there are no detections at all and for unmatched rows). -/
def disappearStep (st : TrackerState) (object_id : Nat) : TrackerState :=
  let d := (dget st.disappeared object_id).getD 0 + 1
  let st' := { st with disappeared := dset st.disappeared object_id d }
  if d > st'.max_disappeared then ObjectTracker.deregister st' object_id
  else st'

/-- The minimum of a list of rationals (`numpy`'s `min`; the empty case is
unreachable in `update` since both index ranges are nonempty there). -/
def listMinQ : List ℚ → ℚ
  | [] => 0
  | x :: xs => xs.foldl min x

/-- `np.argmin`: index of the first occurrence of the minimum. -/
def argminQ (l : List ℚ) : Nat := l.findIdx (fun v => decide (v = listMinQ l))

/-- Stable insertion of index `i` into an index list sorted by `vals`. -/
def insertByVal (vals : List ℚ) (i : Nat) : List Nat → List Nat
  | [] => [i]
  | j :: rest =>
      if vals.getD i 0 ≤ vals.getD j 0 then i :: j :: rest
      else j :: insertByVal vals i rest

/-- `np.argsort`: the indices of `vals` sorted by value.  `numpy`'s default
sort leaves the order of ties unspecified; a stable sort is chosen here, and
none of the verified properties depends on the tie order. -/
def argsortQ (vals : List ℚ) : List Nat :=
  (List.range vals.length).foldr (insertByVal vals) []

/-- One step of the greedy matching loop of `ObjectTracker.update`
(`for row, col in zip(rows, cols)`), threading the used-row and used-column
sets. -/
def matchOne (object_ids : List Nat) (input_centers : List (Int × Int))
    (detections : List Detection) (distances : Nat → Nat → ℚ) (now : ℚ)
    (acc : TrackerState × List Nat × List Nat) (rc : Nat × Nat) :
    TrackerState × List Nat × List Nat :=
  let (st, used_rows, used_cols) := acc
  if rc.1 ∈ used_rows ∨ rc.2 ∈ used_cols then acc
  else if distances rc.1 rc.2 > (st.max_distance : ℚ) then acc
  else
    let object_id := object_ids.getD rc.1 0
    let det := detections.getD rc.2 default
    let obj := (dget st.objects object_id).getD default
    let st1 := { st with
      objects := dset st.objects object_id
        { obj with
            bbox := det.bbox,
            center := input_centers.getD rc.2 (0, 0),
            last_seen := now },
      disappeared := dset st.disappeared object_id 0 }
    let h := (dget st1.object_history object_id).getD default
    let h1 : ObjHistory := ⟨h.positions ++ [input_centers.getD rc.2 (0, 0)],
      h.timestamps ++ [now], h.bboxes ++ [det.bbox]⟩
    let h2 := if h1.positions.length > 100 then
        (⟨h1.positions.drop 1, h1.timestamps.drop 1, h1.bboxes.drop 1⟩ :
          ObjHistory)
      else h1
    ({ st1 with object_history := dset st1.object_history object_id h2 },
     rc.1 :: used_rows, rc.2 :: used_cols)

/-- The greedy matching loop of `ObjectTracker.update`: `rows` is the
`argsort` of the per-row minimum distances, `cols[i]` the `argmin` of row
`rows[i]`, and the pairs are folded through `matchOne` with empty used
sets. -/
def matchPhase (object_ids : List Nat) (input_centers : List (Int × Int))
    (detections : List Detection) (distances : Nat → Nat → ℚ) (now : ℚ)
    (s : TrackerState) : TrackerState × List Nat × List Nat :=
  let row_mins := (List.range object_ids.length).map (fun i =>
    listMinQ ((List.range input_centers.length).map (fun j =>
      distances i j)))
  let rows := argsortQ row_mins
  let cols := rows.map (fun r =>
    argminQ ((List.range input_centers.length).map (fun j =>
      distances r j)))
  (rows.zip cols).foldl
    (matchOne object_ids input_centers detections distances now) (s, [], [])

/-- The unmatched-rows loop of `ObjectTracker.update`: every row not in
`used_rows` runs the disappearance step for its object id. -/
def rowPhase (object_ids used_rows : List Nat) (st : TrackerState) :
    TrackerState :=
  (List.range object_ids.length).foldl (fun st row =>
    if row ∈ used_rows then st
    else disappearStep st (object_ids.getD row 0)) st

/-- The unmatched-columns loop of `ObjectTracker.update`: every detection
column not in `used_cols` is registered as a new object. -/
def colPhase (now : ℚ) (detections : List Detection) (used_cols : List Nat)
    (ncols : Nat) (st : TrackerState) : TrackerState :=
  (List.range ncols).foldl (fun st col =>
    if col ∈ used_cols then st
    else (ObjectTracker.register st now
      ((detections.getD col default).bbox)
      ((detections.getD col default).class_name)).2) st

/-- `ObjectTracker.update(detections)`.  With no detections every counter is
incremented (deregistering past `max_disappeared`); with no existing objects
every detection is registered; otherwise existing objects are greedily
matched to detections by ascending distance, unmatched rows disappear and
unmatched columns are registered. -/
def ObjectTracker.update (dist : DistFn) (s : TrackerState) (now : ℚ)
    (detections : List Detection) : TrackerState :=
  if detections = [] then
    (dkeys s.disappeared).foldl disappearStep s
  else
    let input_centers := detections.map (fun d => bbox_to_center d.bbox)
    if s.objects = [] then
      detections.foldl
        (fun st d => (ObjectTracker.register st now d.bbox d.class_name).2) s
    else
      let object_ids := dkeys s.objects
      let object_centers := s.objects.map (fun kv => kv.2.center)
      let distances : Nat → Nat → ℚ := fun i j =>
        dist (object_centers.getD i (0, 0)) (input_centers.getD j (0, 0))
      let macc := matchPhase object_ids input_centers detections distances
        now s
      colPhase now detections macc.2.2 input_centers.length
        (rowPhase object_ids macc.2.1 macc.1)

/-- `ObjectTracker.get_object_duration(object_id)`. -/
def ObjectTracker.get_object_duration (s : TrackerState) (now : ℚ)
    (object_id : Nat) : ℚ :=
  match dget s.objects object_id with
  | none => 0
  | some obj => now - obj.first_seen

/-- `ObjectTracker.get_object_movement(object_id)`: total distance along the
recorded position path. -/
def ObjectTracker.get_object_movement (dist : DistFn) (s : TrackerState)
    (object_id : Nat) : ℚ :=
  match dget s.object_history object_id with
  | none => 0
  | some h =>
      if h.positions.length < 2 then 0
      else (h.positions.zip h.positions.tail).foldl
        (fun acc pq => acc + dist pq.1 pq.2) 0

/-- `ObjectTracker.is_stationary(object_id, threshold)`. -/
def ObjectTracker.is_stationary (dist : DistFn) (s : TrackerState) (now : ℚ)
    (object_id : Nat) (threshold : ℚ) : Bool :=
  let movement := ObjectTracker.get_object_movement dist s object_id
  let duration := ObjectTracker.get_object_duration s now object_id
  if duration < 10 then false
  else decide (movement < threshold)

/-- `n` successive calls to `update` with an empty detection list. -/
def emptyUpdates (dist : DistFn) (now : ℚ) (n : Nat) (s : TrackerState) :
    TrackerState :=
  (fun st => ObjectTracker.update dist st now [])^[n] s

/-- A client-visible tracker operation, for stating state invariants over
arbitrary call sequences. -/
inductive TrackerOp where
  | register (bbox : BBox) (class_name : String) (now : ℚ)
  | deregister (object_id : Nat)
  | update (detections : List Detection) (now : ℚ)

/-- Interpretation of one tracker operation (`deregister` of an absent id,
where CPython would raise `KeyError`, is a no-op here). -/
def applyOp (dist : DistFn) (s : TrackerState) : TrackerOp → TrackerState
  | .register bbox cn now => (ObjectTracker.register s now bbox cn).2
  | .deregister oid => ObjectTracker.deregister s oid
  | .update dets now => ObjectTracker.update dist s now dets

/-- The tracker state reached from a fresh tracker by a sequence of
operations. -/
def runTracker (dist : DistFn) (max_disappeared max_distance : Nat)
    (ops : List TrackerOp) : TrackerState :=
  ops.foldl (applyOp dist) (ObjectTracker.init max_disappeared max_distance)

/-- C10: the tracker's query operations are total on arbitrary ids — for an
id absent from `objects`, `get_object_duration` returns 0 and `is_stationary`
returns `false` (its duration 0 is below the 10-second minimum); for an id
absent from `object_history` (never registered), `get_object_movement`
returns 0.  No query fails on an unknown id. -/
theorem tracker_queries_total_on_unknown_ids (dist : DistFn)
    (s : TrackerState) (now : ℚ) (object_id : Nat) (threshold : ℚ) :
    (object_id ∉ dkeys s.objects →
        ObjectTracker.get_object_duration s now object_id = 0
          ∧ ObjectTracker.is_stationary dist s now object_id threshold
            = false)
      ∧ (object_id ∉ dkeys s.object_history →
          ObjectTracker.get_object_movement dist s object_id = 0) := by
  constructor
  · intro h
    have hd : ObjectTracker.get_object_duration s now object_id = 0 := by
      simp [ObjectTracker.get_object_duration, dget_eq_none_of_not_mem h]
    refine ⟨hd, ?_⟩
    norm_num [ObjectTracker.is_stationary, hd]
  · intro h
    simp [ObjectTracker.get_object_movement, dget_eq_none_of_not_mem h]

/-- Witness for C10 at a fresh tracker and the unknown id 5. -/
theorem tracker_queries_total_witness :
    (5 ∉ dkeys (ObjectTracker.init 30 100).objects
        ∧ 5 ∉ dkeys (ObjectTracker.init 30 100).object_history)
      ∧ ObjectTracker.get_object_duration (ObjectTracker.init 30 100) 0 5 = 0
      ∧ ObjectTracker.is_stationary (fun _ _ => 0)
          (ObjectTracker.init 30 100) 0 5 50 = false
      ∧ ObjectTracker.get_object_movement (fun _ _ => 0)
          (ObjectTracker.init 30 100) 5 = 0 := by
  have h := tracker_queries_total_on_unknown_ids (fun _ _ => 0)
    (ObjectTracker.init 30 100) 0 5 50
  exact ⟨⟨by decide, by decide⟩, (h.1 (by decide)).1, (h.1 (by decide)).2,
    h.2 (by decide)⟩

lemma emptyUpdates_singleton (dist : DistFn) (now : ℚ) (bbox : BBox)
    (cn : String) (maxD maxDist : Nat) :
    ∀ n, n ≤ maxD →
      emptyUpdates dist now n
          (ObjectTracker.register (ObjectTracker.init maxD maxDist)
            now bbox cn).2
        = ⟨1, [(0, ⟨bbox, bbox_to_center bbox, cn, now, now⟩)], [(0, n)],
            maxD, maxDist, [(0, ⟨[bbox_to_center bbox], [now], [bbox]⟩)]⟩ := by
  intro n
  induction n with
  | zero =>
      intro _
      simp [emptyUpdates, ObjectTracker.register, ObjectTracker.init, dset,
        dcontains]
  | succ n ih =>
      intro hn
      rw [emptyUpdates, Function.iterate_succ_apply', ← emptyUpdates,
        ih (Nat.le_of_succ_le hn)]
      simp only [ObjectTracker.update, dkeys, List.map_cons, List.map_nil,
        List.foldl_cons, List.foldl_nil, disappearStep, dget, dset, dcontains,
        List.find?, List.any_cons, List.any_nil, if_pos, decide_True,
        Bool.or_false, Option.map_some', Option.getD_some, if_true]
      rw [if_neg (by omega : ¬n + 1 > maxD)]

/-- C6: starting from a tracker holding exactly one registered entity,
`max_disappeared` consecutive empty updates leave the entity live (its
counter equals `max_disappeared`; deregistration needs the counter to
strictly exceed it), and the `(max_disappeared + 1)`-th empty update
deregisters it. -/
theorem tracker_max_disappeared_boundary (dist : DistFn) (now : ℚ)
    (bbox : BBox) (cn : String) (maxD maxDist n : Nat) (hn : n ≤ maxD) :
    dkeys (emptyUpdates dist now n
        (ObjectTracker.register (ObjectTracker.init maxD maxDist)
          now bbox cn).2).objects = [0]
      ∧ dget (emptyUpdates dist now n
          (ObjectTracker.register (ObjectTracker.init maxD maxDist)
            now bbox cn).2).disappeared 0 = some n
      ∧ dkeys (emptyUpdates dist now (maxD + 1)
          (ObjectTracker.register (ObjectTracker.init maxD maxDist)
            now bbox cn).2).objects = []
      ∧ dkeys (emptyUpdates dist now (maxD + 1)
          (ObjectTracker.register (ObjectTracker.init maxD maxDist)
            now bbox cn).2).disappeared = [] := by
  have hlast : emptyUpdates dist now (maxD + 1)
      (ObjectTracker.register (ObjectTracker.init maxD maxDist)
        now bbox cn).2
      = ObjectTracker.update dist
          (emptyUpdates dist now maxD
            (ObjectTracker.register (ObjectTracker.init maxD maxDist)
              now bbox cn).2) now [] := by
    rw [emptyUpdates, Function.iterate_succ_apply', ← emptyUpdates]
  refine ⟨?_, ?_, ?_, ?_⟩
  · rw [emptyUpdates_singleton dist now bbox cn maxD maxDist n hn]
    rfl
  · rw [emptyUpdates_singleton dist now bbox cn maxD maxDist n hn]
    simp [dget, dset]
  · rw [hlast, emptyUpdates_singleton dist now bbox cn maxD maxDist maxD
      le_rfl]
    simp only [ObjectTracker.update, dkeys, List.map_cons, List.map_nil,
      List.foldl_cons, List.foldl_nil, disappearStep, dget, dset, dcontains,
      List.find?, List.any_cons, List.any_nil, decide_True, Bool.or_false,
      Option.map_some', Option.getD_some, if_true]
    rw [if_pos (by omega : maxD + 1 > maxD)]
    simp [ObjectTracker.deregister, ddel, dkeys]
  · rw [hlast, emptyUpdates_singleton dist now bbox cn maxD maxDist maxD
      le_rfl]
    simp only [ObjectTracker.update, dkeys, List.map_cons, List.map_nil,
      List.foldl_cons, List.foldl_nil, disappearStep, dget, dset, dcontains,
      List.find?, List.any_cons, List.any_nil, decide_True, Bool.or_false,
      Option.map_some', Option.getD_some, if_true]
    rw [if_pos (by omega : maxD + 1 > maxD)]
    simp [ObjectTracker.deregister, ddel, dkeys]

/-- Witness for C6 with `max_disappeared = 2`, `n = 2`. -/
theorem tracker_max_disappeared_boundary_witness :
    2 ≤ 2
      ∧ dkeys (emptyUpdates (fun _ _ => 0) 0 2
          (ObjectTracker.register (ObjectTracker.init 2 100)
            0 ⟨0, 0, 10, 10⟩ "person").2).objects = [0]
      ∧ dget (emptyUpdates (fun _ _ => 0) 0 2
          (ObjectTracker.register (ObjectTracker.init 2 100)
            0 ⟨0, 0, 10, 10⟩ "person").2).disappeared 0 = some 2
      ∧ dkeys (emptyUpdates (fun _ _ => 0) 0 3
          (ObjectTracker.register (ObjectTracker.init 2 100)
            0 ⟨0, 0, 10, 10⟩ "person").2).objects = []
      ∧ dkeys (emptyUpdates (fun _ _ => 0) 0 3
          (ObjectTracker.register (ObjectTracker.init 2 100)
            0 ⟨0, 0, 10, 10⟩ "person").2).disappeared = [] := by
  have h := tracker_max_disappeared_boundary (fun _ _ => 0) 0
    ⟨0, 0, 10, 10⟩ "person" 2 100 2 (by decide)
  exact ⟨by decide, h.1, h.2.1, h.2.2.1, h.2.2.2⟩

/-- The C9 state invariant of the tracker: the live tables share their key
list, every live id has history, every id ever assigned (history is never
pruned) is below `next_object_id`, and key lists are duplicate-free. -/
def TrackerInv (s : TrackerState) : Prop :=
  dkeys s.objects = dkeys s.disappeared
    ∧ (∀ k ∈ dkeys s.objects, k ∈ dkeys s.object_history)
    ∧ (∀ k ∈ dkeys s.object_history, k < s.next_object_id)
    ∧ (dkeys s.objects).Nodup
    ∧ (dkeys s.object_history).Nodup

lemma getD_mem_of_lt {l : List Nat} {i : Nat} (h : i < l.length) :
    l.getD i 0 ∈ l := by
  rw [List.getD_eq_getElem l 0 h]
  exact List.getElem_mem _

lemma getD_ne_of_nodup {l : List Nat} (h : l.Nodup) {i j : Nat}
    (hi : i < l.length) (hj : j < l.length) (hij : i ≠ j) :
    l.getD i 0 ≠ l.getD j 0 := by
  rw [List.getD_eq_getElem l 0 hi, List.getD_eq_getElem l 0 hj]
  intro he
  exact hij (h.getElem_inj_iff.mp he)

lemma inv_init (a b : Nat) : TrackerInv (ObjectTracker.init a b) := by
  refine ⟨rfl, ?_, ?_, ?_, ?_⟩ <;> simp [ObjectTracker.init, dkeys]

lemma inv_register {s : TrackerState} (h : TrackerInv s) (now : ℚ)
    (bbox : BBox) (cn : String) :
    TrackerInv (ObjectTracker.register s now bbox cn).2 := by
  obtain ⟨hkd, hoh, hlt, hno, hnh⟩ := h
  have hfreshH : s.next_object_id ∉ dkeys s.object_history :=
    fun hm => lt_irrefl _ (hlt _ hm)
  have hfreshO : s.next_object_id ∉ dkeys s.objects :=
    fun hm => hfreshH (hoh _ hm)
  have hfreshD : s.next_object_id ∉ dkeys s.disappeared := hkd ▸ hfreshO
  simp only [ObjectTracker.register]
  refine ⟨?_, ?_, ?_, ?_, ?_⟩
  · rw [dkeys_dset_of_not_mem _ hfreshO, dkeys_dset_of_not_mem _ hfreshD, hkd]
  · intro k hk
    rw [dkeys_dset_of_not_mem _ hfreshO] at hk
    rw [dkeys_dset_of_not_mem _ hfreshH]
    rcases List.mem_append.1 hk with h' | h'
    · exact List.mem_append.2 (Or.inl (hoh k h'))
    · exact List.mem_append.2 (Or.inr h')
  · intro k hk
    rw [dkeys_dset_of_not_mem _ hfreshH] at hk
    rcases List.mem_append.1 hk with h' | h'
    · exact Nat.lt_succ_of_lt (hlt k h')
    · simp only [List.mem_singleton] at h'
      exact h' ▸ Nat.lt_succ_self s.next_object_id
  · rw [dkeys_dset_of_not_mem _ hfreshO]
    exact List.nodup_append.2 ⟨hno, List.nodup_singleton _,
      fun a ha hb => hfreshO ((List.mem_singleton.1 hb) ▸ ha)⟩
  · rw [dkeys_dset_of_not_mem _ hfreshH]
    exact List.nodup_append.2 ⟨hnh, List.nodup_singleton _,
      fun a ha hb => hfreshH ((List.mem_singleton.1 hb) ▸ ha)⟩

lemma inv_deregister {s : TrackerState} (h : TrackerInv s) (oid : Nat) :
    TrackerInv (ObjectTracker.deregister s oid) := by
  obtain ⟨hkd, hoh, hlt, hno, hnh⟩ := h
  refine ⟨?_, ?_, hlt, ?_, hnh⟩
  · simp only [ObjectTracker.deregister, dkeys_ddel_eq_filter, hkd]
  · intro k hk
    exact hoh k (mem_dkeys_ddel.1 hk).1
  · simp only [ObjectTracker.deregister, dkeys_ddel_eq_filter]
    exact hno.filter _

lemma inv_disappearStep {st : TrackerState} {k : Nat} (h : TrackerInv st)
    (hk : k ∈ dkeys st.disappeared) :
    TrackerInv (disappearStep st k)
      ∧ ∀ a ∈ dkeys st.disappeared, a ≠ k →
          a ∈ dkeys (disappearStep st k).disappeared := by
  obtain ⟨hkd, hoh, hlt, hno, hnh⟩ := h
  have hkeys :
      dkeys (dset st.disappeared k ((dget st.disappeared k).getD 0 + 1))
        = dkeys st.disappeared := dkeys_dset_of_mem _ hk
  have hmid : TrackerInv { st with
      disappeared := dset st.disappeared k
        ((dget st.disappeared k).getD 0 + 1) } := by
    exact ⟨by rw [hkeys]; exact hkd, hoh, hlt, hno, hnh⟩
  simp only [disappearStep]
  by_cases hgt : (dget st.disappeared k).getD 0 + 1 > st.max_disappeared
  · rw [if_pos hgt]
    refine ⟨inv_deregister hmid k, ?_⟩
    intro a ha hne
    simp only [ObjectTracker.deregister, mem_dkeys_ddel, hkeys]
    exact ⟨ha, hne⟩
  · rw [if_neg hgt]
    refine ⟨hmid, ?_⟩
    intro a ha _
    simpa [hkeys] using ha

lemma inv_foldl_disappearStep :
    ∀ (ks : List Nat) (st : TrackerState), TrackerInv st → ks.Nodup →
      (∀ k ∈ ks, k ∈ dkeys st.disappeared) →
      TrackerInv (ks.foldl disappearStep st) := by
  intro ks
  induction ks with
  | nil => intro st h _ _; exact h
  | cons k rest ih =>
      intro st h hnd hmem
      simp only [List.foldl_cons]
      obtain ⟨h1, h2⟩ := inv_disappearStep h (hmem k (List.mem_cons_self k rest))
      refine ih _ h1 (List.nodup_cons.1 hnd).2 ?_
      intro a ha
      exact h2 a (hmem a (List.mem_cons_of_mem _ ha))
        (fun he => (List.nodup_cons.1 hnd).1 (he ▸ ha))

lemma inv_foldl_register (now : ℚ) :
    ∀ (dets : List Detection) (st : TrackerState), TrackerInv st →
      TrackerInv (dets.foldl
        (fun st d => (ObjectTracker.register st now d.bbox d.class_name).2)
        st) := by
  intro dets
  induction dets with
  | nil => intro st h; exact h
  | cons d rest ih =>
      intro st h
      exact ih _ (inv_register h now d.bbox d.class_name)

lemma mem_insertByVal {vals : List ℚ} {i x : Nat} :
    ∀ {l : List Nat}, x ∈ insertByVal vals i l → x = i ∨ x ∈ l := by
  intro l
  induction l with
  | nil => simp [insertByVal]
  | cons j rest ih =>
      simp only [insertByVal]
      split_ifs with hle
      · intro hx
        rcases List.mem_cons.1 hx with h | h
        · exact Or.inl h
        · exact Or.inr h
      · intro hx
        rcases List.mem_cons.1 hx with h | h
        · exact Or.inr (h ▸ List.mem_cons_self j rest)
        · rcases ih h with h' | h'
          · exact Or.inl h'
          · exact Or.inr (List.mem_cons_of_mem _ h')

lemma mem_argsortQ {vals : List ℚ} {x : Nat} (hx : x ∈ argsortQ vals) :
    x < vals.length := by
  have key : ∀ (L : List Nat) (acc : List Nat),
      x ∈ L.foldr (insertByVal vals) acc → x ∈ L ∨ x ∈ acc := by
    intro L
    induction L with
    | nil => intro acc h; exact Or.inr h
    | cons a L ih =>
        intro acc h
        rcases mem_insertByVal h with h' | h'
        · exact Or.inl (h' ▸ List.mem_cons_self a L)
        · rcases ih _ h' with h'' | h''
          · exact Or.inl (List.mem_cons_of_mem _ h'')
          · exact Or.inr h''
  rcases key (List.range vals.length) [] hx with h | h
  · exact List.mem_range.1 h
  · cases h

lemma inv_foldl_matchOne (object_ids : List Nat)
    (input_centers : List (Int × Int)) (detections : List Detection)
    (distances : Nat → Nat → ℚ) (now : ℚ) :
    ∀ (pairs : List (Nat × Nat)) (st : TrackerState) (ur uc : List Nat),
      TrackerInv st → (∀ rc ∈ pairs, rc.1 < object_ids.length) →
      dkeys st.objects = object_ids →
      TrackerInv (pairs.foldl
          (matchOne object_ids input_centers detections distances now)
          (st, ur, uc)).1
        ∧ dkeys (pairs.foldl
            (matchOne object_ids input_centers detections distances now)
            (st, ur, uc)).1.objects = object_ids := by
  intro pairs
  induction pairs with
  | nil => intro st ur uc h _ hk; exact ⟨h, hk⟩
  | cons rc rest ih =>
      intro st ur uc h hlen hk
      obtain ⟨hkd, hoh, hlt, hno, hnh⟩ := h
      simp only [List.foldl_cons]
      have hrc : rc.1 < object_ids.length :=
        hlen rc (List.mem_cons_self rc rest)
      have hrest : ∀ p ∈ rest, p.1 < object_ids.length :=
        fun p hp => hlen p (List.mem_cons_of_mem _ hp)
      by_cases hused : rc.1 ∈ ur ∨ rc.2 ∈ uc
      · rw [matchOne, if_pos hused]
        exact ih st ur uc ⟨hkd, hoh, hlt, hno, hnh⟩ hrest hk
      · by_cases hfar :
            distances rc.1 rc.2 > ((st, ur, uc).1.max_distance : ℚ)
        · rw [matchOne, if_neg hused, if_pos hfar]
          exact ih st ur uc ⟨hkd, hoh, hlt, hno, hnh⟩ hrest hk
        · rw [matchOne, if_neg hused, if_neg hfar]
          have hmemO : object_ids.getD rc.1 0 ∈ dkeys st.objects := by
            rw [hk]
            exact getD_mem_of_lt hrc
          have hmemD : object_ids.getD rc.1 0 ∈ dkeys st.disappeared :=
            hkd ▸ hmemO
          have hmemH : object_ids.getD rc.1 0 ∈ dkeys st.object_history :=
            hoh _ hmemO
          refine ih _ _ _ ⟨?_, ?_, ?_, ?_, ?_⟩ hrest ?_ <;>
            simp only [dkeys_dset_of_mem _ hmemO, dkeys_dset_of_mem _ hmemD,
              dkeys_dset_of_mem _ hmemH]
          · exact hkd
          · exact hoh
          · exact hlt
          · exact hno
          · exact hnh
          · exact hk

lemma inv_foldl_rowStep (object_ids : List Nat) (used_rows : List Nat)
    (hnodup : object_ids.Nodup) :
    ∀ (rs : List Nat) (st : TrackerState), TrackerInv st → rs.Nodup →
      (∀ r ∈ rs, r < object_ids.length) →
      (∀ r ∈ rs, r ∉ used_rows →
        object_ids.getD r 0 ∈ dkeys st.disappeared) →
      TrackerInv (rs.foldl (fun st row => if row ∈ used_rows then st
        else disappearStep st (object_ids.getD row 0)) st) := by
  intro rs
  induction rs with
  | nil => intro st h _ _ _; exact h
  | cons r rest ih =>
      intro st h hnd hlen hmem
      simp only [List.foldl_cons]
      have hrestlen : ∀ r' ∈ rest, r' < object_ids.length :=
        fun r' hr' => hlen r' (List.mem_cons_of_mem _ hr')
      by_cases hu : r ∈ used_rows
      · rw [if_pos hu]
        refine ih st h (List.nodup_cons.1 hnd).2 hrestlen ?_
        intro r' hr' hu'
        exact hmem r' (List.mem_cons_of_mem _ hr') hu'
      · rw [if_neg hu]
        obtain ⟨h1, h2⟩ := inv_disappearStep h
          (hmem r (List.mem_cons_self r rest) hu)
        refine ih _ h1 (List.nodup_cons.1 hnd).2 hrestlen ?_
        intro r' hr' hu'
        refine h2 _ (hmem r' (List.mem_cons_of_mem _ hr') hu') ?_
        refine getD_ne_of_nodup hnodup (hrestlen r' hr')
          (hlen r (List.mem_cons_self r rest)) ?_
        intro he
        exact (List.nodup_cons.1 hnd).1 (he ▸ hr')

lemma inv_foldl_colStep (now : ℚ)
    (detections : List Detection) (used_cols : List Nat) :
    ∀ (cs : List Nat) (st : TrackerState), TrackerInv st →
      TrackerInv (cs.foldl (fun st col => if col ∈ used_cols then st
        else (ObjectTracker.register st now
          ((detections.getD col default).bbox)
          ((detections.getD col default).class_name)).2) st) := by
  intro cs
  induction cs with
  | nil => intro st h; exact h
  | cons c rest ih =>
      intro st h
      simp only [List.foldl_cons]
      by_cases hu : c ∈ used_cols
      · rw [if_pos hu]; exact ih st h
      · rw [if_neg hu]; exact ih _ (inv_register h now _ _)

lemma inv_matchPhase (object_ids : List Nat)
    (input_centers : List (Int × Int)) (detections : List Detection)
    (distances : Nat → Nat → ℚ) (now : ℚ) (s : TrackerState)
    (h : TrackerInv s) (hk : dkeys s.objects = object_ids) :
    TrackerInv (matchPhase object_ids input_centers detections distances
        now s).1
      ∧ dkeys (matchPhase object_ids input_centers detections distances
          now s).1.objects = object_ids := by
  unfold matchPhase
  apply inv_foldl_matchOne object_ids input_centers detections distances now
    _ s [] [] h _ hk
  intro rc hrc
  have h1 := (List.of_mem_zip hrc).1
  have h2 := mem_argsortQ h1
  simpa using h2

lemma inv_rowPhase (object_ids used_rows : List Nat) (st : TrackerState)
    (hnodup : object_ids.Nodup) (h : TrackerInv st)
    (hmem : ∀ r, r < object_ids.length →
      object_ids.getD r 0 ∈ dkeys st.disappeared) :
    TrackerInv (rowPhase object_ids used_rows st) := by
  unfold rowPhase
  exact inv_foldl_rowStep object_ids used_rows hnodup _ st h
    (List.nodup_range _) (fun r hr => List.mem_range.1 hr)
    (fun r hr _ => hmem r (List.mem_range.1 hr))

lemma inv_colPhase (now : ℚ) (detections : List Detection)
    (used_cols : List Nat) (ncols : Nat) (st : TrackerState)
    (h : TrackerInv st) : TrackerInv (colPhase now detections used_cols
      ncols st) := by
  unfold colPhase
  exact inv_foldl_colStep now detections used_cols _ st h

lemma inv_update {s : TrackerState} (h : TrackerInv s) (dist : DistFn)
    (now : ℚ) (detections : List Detection) :
    TrackerInv (ObjectTracker.update dist s now detections) := by
  by_cases hdet : detections = []
  · rw [ObjectTracker.update, if_pos hdet]
    exact inv_foldl_disappearStep _ _ h (h.1 ▸ h.2.2.2.1) (fun k hk => hk)
  · rw [ObjectTracker.update, if_neg hdet]
    by_cases hobj : s.objects = []
    · simp only [if_pos hobj]
      exact inv_foldl_register now _ _ h
    · simp only [if_neg hobj]
      have hM := inv_matchPhase (dkeys s.objects)
        (detections.map fun d => bbox_to_center d.bbox) detections
        (fun i j => dist ((s.objects.map fun kv => kv.2.center).getD i (0, 0))
          ((detections.map fun d => bbox_to_center d.bbox).getD j (0, 0)))
        now s h rfl
      apply inv_colPhase
      apply inv_rowPhase _ _ _ h.2.2.2.1 hM.1
      intro r hr
      rw [← hM.1.1, hM.2]
      exact getD_mem_of_lt hr

lemma inv_runTracker (dist : DistFn) (maxD maxDist : Nat)
    (ops : List TrackerOp) :
    TrackerInv (runTracker dist maxD maxDist ops) := by
  have key : ∀ (l : List TrackerOp) (s : TrackerState), TrackerInv s →
      TrackerInv (l.foldl (applyOp dist) s) := by
    intro l
    induction l with
    | nil => intro s h; exact h
    | cons op rest ih =>
        intro s h
        simp only [List.foldl_cons]
        apply ih
        cases op with
        | register bbox cn now => exact inv_register h now bbox cn
        | deregister oid => exact inv_deregister h oid
        | update dets now => exact inv_update h dist now dets
  exact key ops _ (inv_init maxD maxDist)

/-- C9: after every sequence of register/deregister/update operations from a
fresh tracker, the key set of the live-objects table equals the key set of
the disappeared-counter table, every live id also has a history entry, and
`next_object_id` strictly exceeds every id in the history table — which
records every id ever assigned, since history entries are never pruned — so
ids are never reused (the history key list is duplicate-free). -/
theorem tracker_tables_consistent (dist : DistFn) (maxD maxDist : Nat)
    (ops : List TrackerOp) :
    (∀ k, k ∈ dkeys (runTracker dist maxD maxDist ops).objects
        ↔ k ∈ dkeys (runTracker dist maxD maxDist ops).disappeared)
      ∧ (∀ k ∈ dkeys (runTracker dist maxD maxDist ops).objects,
          k ∈ dkeys (runTracker dist maxD maxDist ops).object_history)
      ∧ (∀ k ∈ dkeys (runTracker dist maxD maxDist ops).object_history,
          k < (runTracker dist maxD maxDist ops).next_object_id)
      ∧ (dkeys (runTracker dist maxD maxDist ops).object_history).Nodup := by
  obtain ⟨hkd, hoh, hlt, _, hnh⟩ := inv_runTracker dist maxD maxDist ops
  exact ⟨fun k => by rw [hkd], hoh, hlt, hnh⟩

/-- Witness for C9 on a concrete operation sequence. -/
theorem tracker_tables_consistent_witness :
    0 ∈ dkeys (runTracker (fun _ _ => 0) 30 100
        [TrackerOp.register ⟨0, 0, 10, 10⟩ "person" 0,
         TrackerOp.update [] 1]).objects
      ∧ 0 ∈ dkeys (runTracker (fun _ _ => 0) 30 100
          [TrackerOp.register ⟨0, 0, 10, 10⟩ "person" 0,
           TrackerOp.update [] 1]).object_history
      ∧ 0 < (runTracker (fun _ _ => 0) 30 100
          [TrackerOp.register ⟨0, 0, 10, 10⟩ "person" 0,
           TrackerOp.update [] 1]).next_object_id := by
  have h := tracker_tables_consistent (fun _ _ => 0) 30 100
    [TrackerOp.register ⟨0, 0, 10, 10⟩ "person" 0, TrackerOp.update [] 1]
  refine ⟨by decide, h.2.1 0 (by decide), h.2.2.1 0 (h.2.1 0 (by decide))⟩

/-! ## Crowd detection (`support/event_detector.py`)

`EventDetector.detect_crowd` works on `numpy` floats; counts are small
integers and `1.5` is `3/2`, so the arithmetic is modelled exactly over
`ℚ`. -/

/-- One sample of `EventDetector.crowd_history`: `{count, timestamp}`. -/
structure CrowdSample where
  count : Nat
  timestamp : ℚ
deriving Repr, DecidableEq

/-- A crowd event; of the emitted dictionary only the fields the verified
properties mention are modelled. -/
structure CrowdEvent where
  type : String
  person_count : Nat
deriving Repr, DecidableEq

/-- `CROWD_THRESHOLD = 10` (`main/config.py`). -/
def CROWD_THRESHOLD : Nat := 10

/-- The crowd-related fields of an `EventDetector` instance. -/
structure EventDetectorState where
  crowd_history : List CrowdSample
  previous_person_count : Nat
deriving Repr, DecidableEq

/-- `sum(1 for obj in tracked_objects.values() if obj['class'] == 'person')`. -/
def personCount (tracked : List (Nat × TrackedObject)) : Nat :=
  (tracked.filter (fun kv => decide (kv.2.class_name = "person"))).length

/-- The 30-second rolling window: `crowd_history` after appending the current
sample and dropping entries older than 30 seconds. -/
def crowdWindow (s : EventDetectorState) (person_count : Nat)
    (current_time : ℚ) : List CrowdSample :=
  (s.crowd_history ++ [(⟨person_count, current_time⟩ : CrowdSample)]).filter
    (fun entry => decide (current_time - entry.timestamp < 30))

/-- `np.mean([entry['count'] for entry in self.crowd_history[:-5]])`:
the mean of all window samples except the last 5. -/
def crowdAvg (window : List CrowdSample) : ℚ :=
  let counts := (window.take (window.length - 5)).map
    (fun entry => (entry.count : ℚ))
  counts.sum / counts.length

/-- `EventDetector.detect_crowd(tracked_objects)`: appends the current count
to the history, prunes the 30-second window, emits `crowd_spike` when more
than 10 samples exist and the count exceeds both `1.5 ×` the window average
(excluding the last 5 samples) and the crowd threshold, and emits
`crowd_detected` whenever the count exceeds the threshold. -/
def detect_crowd (s : EventDetectorState)
    (tracked : List (Nat × TrackedObject)) (current_time : ℚ) :
    List CrowdEvent × EventDetectorState :=
  let person_count := personCount tracked
  let window := crowdWindow s person_count current_time
  let spike_events :=
    if window.length > 10 then
      (if (person_count : ℚ) > crowdAvg window * (3/2)
          ∧ person_count > CROWD_THRESHOLD then
        [(⟨"crowd_spike", person_count⟩ : CrowdEvent)]
      else [])
    else []
  let detected_events :=
    if person_count > CROWD_THRESHOLD then
      [(⟨"crowd_detected", person_count⟩ : CrowdEvent)]
    else []
  (spike_events ++ detected_events, ⟨window, person_count⟩)

/-- A crowd history of 11 samples of count 4 at seconds 0..10. -/
def exampleCrowdHistory : List CrowdSample :=
  [⟨4, 0⟩, ⟨4, 1⟩, ⟨4, 2⟩, ⟨4, 3⟩, ⟨4, 4⟩, ⟨4, 5⟩,
   ⟨4, 6⟩, ⟨4, 7⟩, ⟨4, 8⟩, ⟨4, 9⟩, ⟨4, 10⟩]

/-- Eleven tracked persons. -/
def exampleCrowdTracked : List (Nat × TrackedObject) :=
  (List.range 11).map
    (fun i => (i, (⟨⟨0, 0, 2, 2⟩, (1, 1), "person", 0, 0⟩ : TrackedObject)))

/-- C7: `detect_crowd` emits `crowd_detected` exactly when the tracked-person
count strictly exceeds the crowd threshold 10, and emits `crowd_spike`
exactly when in addition the 30-second window holds strictly more than 10
samples and the count strictly exceeds 1.5 times the mean of all window
samples except the last 5; a current count of 11 against a window of recent
counts 4 yields both events in the same call. -/
theorem detect_crowd_conditions (s : EventDetectorState)
    (tracked : List (Nat × TrackedObject)) (t : ℚ) :
    ((∃ e ∈ (detect_crowd s tracked t).1, e.type = "crowd_detected")
        ↔ personCount tracked > 10)
      ∧ ((∃ e ∈ (detect_crowd s tracked t).1, e.type = "crowd_spike")
          ↔ (crowdWindow s (personCount tracked) t).length > 10
            ∧ (personCount tracked : ℚ)
                > crowdAvg (crowdWindow s (personCount tracked) t) * (3/2)
            ∧ personCount tracked > 10)
      ∧ (detect_crowd ⟨exampleCrowdHistory, 4⟩ exampleCrowdTracked 11).1
        = [⟨"crowd_spike", 11⟩, ⟨"crowd_detected", 11⟩] := by
  refine ⟨?_, ?_, ?_⟩
  rotate_right
  · norm_num [detect_crowd, crowdWindow, crowdAvg, personCount,
      exampleCrowdHistory, exampleCrowdTracked, CROWD_THRESHOLD,
      List.filter, List.range_succ]
  · by_cases hc : personCount tracked > 10 <;>
      by_cases hw : (crowdWindow s (personCount tracked) t).length > 10 <;>
        by_cases hs : (personCount tracked : ℚ)
            > crowdAvg (crowdWindow s (personCount tracked) t) * (3/2) <;>
          simp [detect_crowd, CROWD_THRESHOLD, hc, hw, hs]
  · by_cases hc : personCount tracked > 10 <;>
      by_cases hw : (crowdWindow s (personCount tracked) t).length > 10 <;>
        by_cases hs : (personCount tracked : ℚ)
            > crowdAvg (crowdWindow s (personCount tracked) t) * (3/2) <;>
          simp [detect_crowd, CROWD_THRESHOLD, hc, hw, hs]

/-! ## Zone analyzer (`analysis/zone_analyzer.py`) -/

/-- A detected person as consumed by `check_intrusions`: `{id, center, bbox}`. -/
structure ZPerson where
  id : Nat
  center : Int × Int
  bbox : BBox
deriving Repr, DecidableEq

/-- A restricted zone `{id, name, polygon}`. -/
structure Zone where
  id : Nat
  name : String
  polygon : List (Int × Int)
deriving Repr, DecidableEq

/-- The type of `cv2.pointPolygonTest(polygon, point, False)` (OpenCV, not
code of this repository): a number whose sign classifies the point —
positive inside, zero on the boundary, negative outside.  The analyzer uses
only the sign, so the test is abstracted as a function parameter. -/
def PolyTest : Type := List (Int × Int) → (Int × Int) → ℚ

/-- A `RESTRICTED_ENTRY` event (the fields the verified properties use). -/
structure ZoneEvent where
  type : String
  timestamp : ℚ
  person_id : Nat
  zone_id : Nat
  zone_name : String
  location : Int × Int
deriving Repr, DecidableEq

/-- The loop state of `check_intrusions`: the accumulated `events` list, the
`current_intrusions` set, and the `active_intrusions` dictionary.  The source
keys the dictionary by the string `f"{person_id}_{zone_id}"`, which for
natural ids is in bijection with the pair `(person_id, zone_id)`; the pair is
used as the key here. -/
structure ZAcc where
  events : List ZoneEvent
  current_intrusions : List (Nat × Nat)
  active_intrusions : List ((Nat × Nat) × ℚ)
deriving Repr, DecidableEq

/-- The body of the nested person/zone loop of `check_intrusions`: when the
test is `≥ 0` the key joins `current_intrusions`, an event is appended only
if the key was not already in `active_intrusions`, and the key's timestamp
is written to `active_intrusions`. -/
def intrusionStep (ppt : PolyTest) (timestamp : ℚ) (acc : ZAcc)
    (person : ZPerson) (zone : Zone) : ZAcc :=
  if ppt zone.polygon person.center ≥ 0 then
    let key := (person.id, zone.id)
    let current := if key ∈ acc.current_intrusions then acc.current_intrusions
      else acc.current_intrusions ++ [key]
    let events := if dcontains acc.active_intrusions key then acc.events
      else acc.events ++ [(⟨"RESTRICTED_ENTRY", timestamp, person.id, zone.id,
        zone.name, person.center⟩ : ZoneEvent)]
    ⟨events, current, dset acc.active_intrusions key timestamp⟩
  else acc

/-- `ZoneAnalyzer.check_intrusions(persons, zones, timestamp)`: runs the
nested loop from the stored dictionary, then deletes every `active_intrusions`
key not observed in this call; returns the emitted events and the new
dictionary. -/
def check_intrusions (ppt : PolyTest) (persons : List ZPerson)
    (zones : List Zone) (timestamp : ℚ)
    (active0 : List ((Nat × Nat) × ℚ)) :
    List ZoneEvent × List ((Nat × Nat) × ℚ) :=
  let acc := persons.foldl (fun acc person =>
    zones.foldl (fun acc zone => intrusionStep ppt timestamp acc person zone)
      acc) ⟨[], [], active0⟩
  (acc.events,
   acc.active_intrusions.filter
     (fun kv => decide (kv.1 ∈ acc.current_intrusions)))

/-- Whether some person entry with id `p` has its center inside or on the
boundary of some zone entry with id `z` (test result `≥ 0`). -/
def pairInside (ppt : PolyTest) (persons : List ZPerson) (zones : List Zone)
    (p z : Nat) : Bool :=
  persons.any (fun person => zones.any (fun zone =>
    decide (person.id = p) && decide (zone.id = z)
      && decide (ppt zone.polygon person.center ≥ 0)))

/-- The number of emitted `RESTRICTED_ENTRY` events for the pair `(p, z)`. -/
def countPairEvents (events : List ZoneEvent) (p z : Nat) : Nat :=
  (events.filter (fun e => decide (e.type = "RESTRICTED_ENTRY")
    && decide (e.person_id = p) && decide (e.zone_id = z))).length

/-- The person/zone pairs in the order the nested loop visits them. -/
def personZonePairs (persons : List ZPerson) (zones : List Zone) :
    List (ZPerson × Zone) :=
  persons.flatMap (fun person => zones.map (fun zone => (person, zone)))

/-- `pairInside` over an explicit pair list. -/
def pairsInside (ppt : PolyTest) (done : List (ZPerson × Zone))
    (p z : Nat) : Bool :=
  done.any (fun pz => decide (pz.1.id = p) && decide (pz.2.id = z)
    && decide (ppt pz.2.polygon pz.1.center ≥ 0))

lemma any_pair_map (ppt : PolyTest) (p z : Nat) (person : ZPerson) :
    ∀ zones : List Zone,
      (zones.any fun zone => decide (person.id = p) && decide (zone.id = z)
        && decide (ppt zone.polygon person.center ≥ 0))
      = ((zones.map fun zone => (person, zone)).any fun pz =>
          decide (pz.1.id = p) && decide (pz.2.id = z)
            && decide (ppt pz.2.polygon pz.1.center ≥ 0)) := by
  intro zones
  induction zones with
  | nil => rfl
  | cons zone rest ih =>
      simp only [List.any_cons, List.map_cons]
      rw [ih]

lemma pairInside_eq_pairsInside (ppt : PolyTest) (persons : List ZPerson)
    (zones : List Zone) (p z : Nat) :
    pairInside ppt persons zones p z
      = pairsInside ppt (personZonePairs persons zones) p z := by
  induction persons with
  | nil => rfl
  | cons person rest ih =>
      simp only [pairInside, List.any_cons, personZonePairs,
        List.flatMap_cons, pairsInside, List.any_append] at ih ⊢
      rw [← ih, any_pair_map]

lemma nestedFoldl_eq_pairs_foldl (f : ZAcc → ZPerson → Zone → ZAcc) :
    ∀ (persons : List ZPerson) (zones : List Zone) (acc : ZAcc),
      persons.foldl (fun acc person =>
        zones.foldl (fun acc zone => f acc person zone) acc) acc
      = (personZonePairs persons zones).foldl
          (fun acc pz => f acc pz.1 pz.2) acc := by
  intro persons
  induction persons with
  | nil => intro zones acc; rfl
  | cons person rest ih =>
      intro zones acc
      simp only [List.foldl_cons, personZonePairs, List.flatMap_cons,
        List.foldl_append, List.foldl_map]
      rw [← personZonePairs, ih]

lemma mem_dkeys_dset {K V : Type} [DecidableEq K] (l : List (K × V))
    (key k : K) (v : V) :
    k ∈ dkeys (dset l key v) ↔ k ∈ dkeys l ∨ k = key := by
  by_cases hmem : key ∈ dkeys l
  · rw [dkeys_dset_of_mem _ hmem]
    constructor
    · exact Or.inl
    · rintro (h | h)
      · exact h
      · exact h ▸ hmem
  · rw [dkeys_dset_of_not_mem _ hmem]
    simp [List.mem_append]

lemma mem_insert_list {α : Type} (l : List α) (a k : α)
    [Decidable (a ∈ l)] :
    k ∈ (if a ∈ l then l else l ++ [a]) ↔ k ∈ l ∨ k = a := by
  split_ifs with h
  · constructor
    · exact Or.inl
    · rintro (h' | h')
      · exact h'
      · exact h' ▸ h
  · simp [List.mem_append]

lemma pairsInside_append_single (ppt : PolyTest)
    (done : List (ZPerson × Zone)) (person : ZPerson) (zone : Zone)
    (a b : Nat) :
    pairsInside ppt (done ++ [(person, zone)]) a b
      = (pairsInside ppt done a b
          || (decide (person.id = a) && decide (zone.id = b)
              && decide (ppt zone.polygon person.center ≥ 0))) := by
  simp [pairsInside, List.any_append]

lemma countPairEvents_append (events : List ZoneEvent) (e : ZoneEvent)
    (p z : Nat) :
    countPairEvents (events ++ [e]) p z
      = countPairEvents events p z
        + (if e.type = "RESTRICTED_ENTRY" ∧ e.person_id = p ∧ e.zone_id = z
           then 1 else 0) := by
  by_cases h1 : e.type = "RESTRICTED_ENTRY" <;>
    by_cases h2 : e.person_id = p <;>
      by_cases h3 : e.zone_id = z <;>
        simp [countPairEvents, List.filter_append, List.filter_cons,
          h1, h2, h3]

lemma intrusionStep_of_not_inside {ppt : PolyTest} {person : ZPerson}
    {zone : Zone} (ts : ℚ) (acc : ZAcc)
    (hin : ¬ppt zone.polygon person.center ≥ 0) :
    intrusionStep ppt ts acc person zone = acc := by
  rw [intrusionStep, if_neg hin]

lemma intrusionStep_of_inside {ppt : PolyTest} {person : ZPerson}
    {zone : Zone} (ts : ℚ) (acc : ZAcc)
    (hin : ppt zone.polygon person.center ≥ 0) :
    intrusionStep ppt ts acc person zone =
      ⟨(if dcontains acc.active_intrusions (person.id, zone.id) then
          acc.events
        else acc.events ++ [(⟨"RESTRICTED_ENTRY", ts, person.id, zone.id,
          zone.name, person.center⟩ : ZoneEvent)]),
       (if (person.id, zone.id) ∈ acc.current_intrusions then
          acc.current_intrusions
        else acc.current_intrusions ++ [(person.id, zone.id)]),
       dset acc.active_intrusions (person.id, zone.id) ts⟩ := by
  rw [intrusionStep, if_pos hin]

/-- The loop invariant of `check_intrusions` for a fixed tracked pair
`(p, z)`: the dictionary keys are the initially active keys plus the pairs
seen inside so far, `current_intrusions` holds exactly the pairs seen inside
so far, and exactly one event for `(p, z)` has been emitted iff the pair was
seen inside and was not initially active. -/
def ZInv (ppt : PolyTest) (active0 : List ((Nat × Nat) × ℚ)) (p z : Nat)
    (done : List (ZPerson × Zone)) (acc : ZAcc) : Prop :=
  (∀ k : Nat × Nat, k ∈ dkeys acc.active_intrusions
      ↔ k ∈ dkeys active0 ∨ pairsInside ppt done k.1 k.2 = true)
    ∧ (∀ k : Nat × Nat, k ∈ acc.current_intrusions
        ↔ pairsInside ppt done k.1 k.2 = true)
    ∧ countPairEvents acc.events p z
      = (if pairsInside ppt done p z = true ∧ (p, z) ∉ dkeys active0
         then 1 else 0)

lemma ZInv_step {ppt : PolyTest} {active0 : List ((Nat × Nat) × ℚ)}
    {p z : Nat} {done : List (ZPerson × Zone)} {acc : ZAcc}
    (h : ZInv ppt active0 p z done acc) (ts : ℚ) (person : ZPerson)
    (zone : Zone) :
    ZInv ppt active0 p z (done ++ [(person, zone)])
      (intrusionStep ppt ts acc person zone) := by
  obtain ⟨hact, hcur, hcnt⟩ := h
  by_cases hin : ppt zone.polygon person.center ≥ 0
  · rw [intrusionStep_of_inside ts acc hin]
    have hkey : ∀ a b : Nat,
        ((decide (person.id = a) && decide (zone.id = b)
          && decide (ppt zone.polygon person.center ≥ 0)) = true)
          ↔ (a, b) = (person.id, zone.id) := by
      intro a b
      simp only [Bool.and_eq_true, decide_eq_true_eq, Prod.ext_iff]
      constructor
      · rintro ⟨⟨h1, h2⟩, _⟩
        exact ⟨h1.symm, h2.symm⟩
      · rintro ⟨h1, h2⟩
        exact ⟨⟨h1.symm, h2.symm⟩, hin⟩
    refine ⟨?_, ?_, ?_⟩
    · intro k
      show k ∈ dkeys (dset acc.active_intrusions (person.id, zone.id) ts)
        ↔ k ∈ dkeys active0
          ∨ pairsInside ppt (done ++ [(person, zone)]) k.1 k.2 = true
      rw [mem_dkeys_dset, pairsInside_append_single, Bool.or_eq_true,
        hkey k.1 k.2, hact k]
      tauto
    · intro k
      show k ∈ (if (person.id, zone.id) ∈ acc.current_intrusions then
            acc.current_intrusions
          else acc.current_intrusions ++ [(person.id, zone.id)])
        ↔ pairsInside ppt (done ++ [(person, zone)]) k.1 k.2 = true
      rw [pairsInside_append_single, Bool.or_eq_true, hkey k.1 k.2,
        ← hcur k]
      exact mem_insert_list acc.current_intrusions (person.id, zone.id) k
    · show countPairEvents
          (if dcontains acc.active_intrusions (person.id, zone.id) then
            acc.events
          else acc.events ++ [(⟨"RESTRICTED_ENTRY", ts, person.id, zone.id,
            zone.name, person.center⟩ : ZoneEvent)]) p z
        = (if pairsInside ppt (done ++ [(person, zone)]) p z = true
              ∧ (p, z) ∉ dkeys active0 then 1 else 0)
      simp only [pairsInside_append_single, Bool.or_eq_true, hkey p z]
      by_cases hkeyact :
          dcontains acc.active_intrusions (person.id, zone.id) = true
      · have hmem := (dcontains_iff_mem_dkeys _ _).1 hkeyact
        rw [hact (person.id, zone.id)] at hmem
        rw [if_pos hkeyact, hcnt]
        refine if_congr ?_ rfl rfl
        by_cases heq : (p, z) = (person.id, zone.id)
        · have hp : p = person.id := congrArg Prod.fst heq
          have hz : z = zone.id := congrArg Prod.snd heq
          subst hp
          subst hz
          rcases hmem with hmem | hmem
          · constructor
            · rintro ⟨_, h0⟩
              exact absurd hmem h0
            · rintro ⟨_, h0⟩
              exact absurd hmem h0
          · constructor
            · rintro ⟨hi, h0⟩
              exact ⟨Or.inl hi, h0⟩
            · rintro ⟨_, h0⟩
              exact ⟨hmem, h0⟩
        · constructor
          · rintro ⟨hi, h0⟩
            exact ⟨Or.inl hi, h0⟩
          · rintro ⟨hor, h0⟩
            rcases hor with hi | habs
            · exact ⟨hi, h0⟩
            · exact absurd habs heq
      · have hnmem : (person.id, zone.id) ∉ dkeys acc.active_intrusions := by
          intro hm
          exact hkeyact ((dcontains_iff_mem_dkeys _ _).2 hm)
        rw [hact (person.id, zone.id)] at hnmem
        push_neg at hnmem
        obtain ⟨hnot0, hnotin⟩ := hnmem
        rw [if_neg (by simpa using hkeyact), countPairEvents_append, hcnt]
        by_cases heq : (p, z) = (person.id, zone.id)
        · have hp : p = person.id := congrArg Prod.fst heq
          have hz : z = zone.id := congrArg Prod.snd heq
          subst hp
          subst hz
          rw [if_neg, if_pos ⟨rfl, rfl, rfl⟩, if_pos ⟨Or.inr rfl, hnot0⟩]
          rintro ⟨hi, _⟩
          exact hnotin hi
        · have hmatch : ¬((⟨"RESTRICTED_ENTRY", ts, person.id, zone.id,
              zone.name, person.center⟩ : ZoneEvent).type = "RESTRICTED_ENTRY"
              ∧ (⟨"RESTRICTED_ENTRY", ts, person.id, zone.id, zone.name,
                person.center⟩ : ZoneEvent).person_id = p
              ∧ (⟨"RESTRICTED_ENTRY", ts, person.id, zone.id, zone.name,
                person.center⟩ : ZoneEvent).zone_id = z) := by
            rintro ⟨_, h1, h2⟩
            refine heq ?_
            have h1' : person.id = p := h1
            have h2' : zone.id = z := h2
            rw [← h1', ← h2']
          rw [if_neg hmatch, add_zero]
          refine if_congr ?_ rfl rfl
          constructor
          · rintro ⟨hi, h0⟩
            exact ⟨Or.inl hi, h0⟩
          · rintro ⟨hor, h0⟩
            rcases hor with hi | habs
            · exact ⟨hi, h0⟩
            · exact absurd habs heq
  · rw [intrusionStep_of_not_inside ts acc hin]
    have hfalse : ∀ a b : Nat,
        pairsInside ppt (done ++ [(person, zone)]) a b
          = pairsInside ppt done a b := by
      intro a b
      rw [pairsInside_append_single]
      simp [hin]
    exact ⟨fun k => by rw [hfalse]; exact hact k,
      fun k => by rw [hfalse]; exact hcur k,
      by rw [hfalse]; exact hcnt⟩

lemma ZInv_foldl {ppt : PolyTest} {active0 : List ((Nat × Nat) × ℚ)}
    {p z : Nat} (ts : ℚ) :
    ∀ (L : List (ZPerson × Zone)) (done : List (ZPerson × Zone)) (acc : ZAcc),
      ZInv ppt active0 p z done acc →
      ZInv ppt active0 p z (done ++ L)
        (L.foldl (fun acc pz => intrusionStep ppt ts acc pz.1 pz.2) acc) := by
  intro L
  induction L with
  | nil =>
      intro done acc h
      simpa using h
  | cons pz rest ih =>
      intro done acc h
      simp only [List.foldl_cons]
      have hstep := ih (done ++ [pz]) _ (ZInv_step h ts pz.1 pz.2)
      rw [show done ++ pz :: rest = (done ++ [pz]) ++ rest by simp]
      exact hstep

lemma ZInv_initial (ppt : PolyTest) (active0 : List ((Nat × Nat) × ℚ))
    (p z : Nat) : ZInv ppt active0 p z [] ⟨[], [], active0⟩ := by
  refine ⟨?_, ?_, ?_⟩
  · intro k
    simp [pairsInside]
  · intro k
    simp [pairsInside]
  · simp [countPairEvents, pairsInside]

lemma mem_dkeys_filter_cur {l : List ((Nat × Nat) × ℚ)}
    {cur : List (Nat × Nat)} {k : Nat × Nat} :
    k ∈ dkeys (l.filter (fun kv => decide (kv.1 ∈ cur)))
      ↔ k ∈ dkeys l ∧ k ∈ cur := by
  induction l with
  | nil => simp [dkeys]
  | cons kv rest ih =>
      by_cases hm : kv.1 ∈ cur <;>
        by_cases hk : k = kv.1 <;>
          simp_all [dkeys, List.filter_cons, hm]

lemma check_intrusions_eq (ppt : PolyTest) (persons : List ZPerson)
    (zones : List Zone) (ts : ℚ) (active0 : List ((Nat × Nat) × ℚ)) :
    check_intrusions ppt persons zones ts active0
      = (((personZonePairs persons zones).foldl
            (fun acc pz => intrusionStep ppt ts acc pz.1 pz.2)
            ⟨[], [], active0⟩).events,
         ((personZonePairs persons zones).foldl
            (fun acc pz => intrusionStep ppt ts acc pz.1 pz.2)
            ⟨[], [], active0⟩).active_intrusions.filter
          (fun kv => decide (kv.1 ∈ ((personZonePairs persons zones).foldl
            (fun acc pz => intrusionStep ppt ts acc pz.1 pz.2)
            ⟨[], [], active0⟩).current_intrusions))) := by
  unfold check_intrusions
  rw [nestedFoldl_eq_pairs_foldl]

lemma check_intrusions_char (ppt : PolyTest) (persons : List ZPerson)
    (zones : List Zone) (ts : ℚ) (active0 : List ((Nat × Nat) × ℚ))
    (p z : Nat) :
    countPairEvents (check_intrusions ppt persons zones ts active0).1 p z
        = (if pairInside ppt persons zones p z = true
              ∧ (p, z) ∉ dkeys active0 then 1 else 0)
      ∧ ((p, z) ∈ dkeys (check_intrusions ppt persons zones ts active0).2
          ↔ pairInside ppt persons zones p z = true) := by
  obtain ⟨hact, hcur, hcnt⟩ :=
    @ZInv_foldl ppt active0 p z ts
      (personZonePairs persons zones) [] ⟨[], [], active0⟩
      (ZInv_initial ppt active0 p z)
  rw [List.nil_append] at hact hcur hcnt
  rw [check_intrusions_eq]
  constructor
  · rw [pairInside_eq_pairsInside]
    exact hcnt
  · show (p, z) ∈ dkeys (List.filter _ _) ↔ _
    rw [mem_dkeys_filter_cur, pairInside_eq_pairsInside, hcur (p, z),
      hact (p, z)]
    tauto

/-- C2: a `RESTRICTED_ENTRY` event for a pair `(p, z)` is emitted by
`check_intrusions` exactly once on a call in which some person entry with id
`p` has its center inside or on the boundary of some zone with id `z`
(`pointPolygonTest ≥ 0`) while the pair was not in the active-intrusion set
before the call (and never more than once per call); the post-call active set
holds the pair exactly when it is currently inside, so on a consecutive call
in which the pair is still inside no further event is emitted, and after a
call in which the pair is outside (the key is dropped), a call in which it is
inside again emits exactly one new event.  The third equation instantiates
this for an arbitrary follow-up call. -/
theorem check_intrusions_transition_events (ppt : PolyTest)
    (persons : List ZPerson) (zones : List Zone) (ts : ℚ)
    (active0 : List ((Nat × Nat) × ℚ)) (p z : Nat)
    (persons2 : List ZPerson) (zones2 : List Zone) (ts2 : ℚ) :
    countPairEvents (check_intrusions ppt persons zones ts active0).1 p z
        = (if pairInside ppt persons zones p z = true
              ∧ (p, z) ∉ dkeys active0 then 1 else 0)
      ∧ ((p, z) ∈ dkeys (check_intrusions ppt persons zones ts active0).2
          ↔ pairInside ppt persons zones p z = true)
      ∧ countPairEvents (check_intrusions ppt persons2 zones2 ts2
            (check_intrusions ppt persons zones ts active0).2).1 p z
        = (if pairInside ppt persons2 zones2 p z = true
              ∧ ¬pairInside ppt persons zones p z = true then 1 else 0) := by
  obtain ⟨h1, h2⟩ := check_intrusions_char ppt persons zones ts active0 p z
  refine ⟨h1, h2, ?_⟩
  obtain ⟨h1', _⟩ := check_intrusions_char ppt persons2 zones2 ts2
    (check_intrusions ppt persons zones ts active0).2 p z
  rw [h1']
  refine if_congr (and_congr_right fun _ => not_congr h2) rfl rfl

/-! ## Loitering detector (`analysis/loitering_detector.py`) -/

/-- A detected person as consumed by `LoiteringDetector.detect`. -/
structure PersonObs where
  id : Nat
  center : Int × Int
  bbox : BBox
deriving Repr, DecidableEq

/-- An entry of `LoiteringDetector.person_history`. -/
structure PersonHistory where
  first_seen : ℚ
  positions : List (Int × Int)
  last_position : Int × Int
  last_update : ℚ
deriving Repr, DecidableEq, Inhabited

/-- The mutable fields of a `LoiteringDetector` instance. -/
structure LoiteringState where
  person_history : List (Nat × PersonHistory)
  active_loitering : List (Nat × ℚ)
deriving Repr, DecidableEq

/-- A `LOITERING` event; of the emitted dictionary only the fields the
verified properties mention are modelled. -/
structure LoiteringEvent where
  type : String
  person_id : Nat
deriving Repr, DecidableEq

/-- `np.mean` of a list of rationals: sum over length. -/
def meanQ (l : List ℚ) : ℚ := l.sum / l.length

/-- The squared deviation of `pos` from `(avg_x, avg_y)` exceeds `t²`. -/
def deviationExceeds (avg_x avg_y t : ℚ) (pos : Int × Int) : Bool :=
  decide (((pos.1 : ℚ) - avg_x) ^ 2 + ((pos.2 : ℚ) - avg_y) ^ 2 > t ^ 2)

/-- `LoiteringDetector._has_moved_significantly(positions)`.  The source
compares `max(sqrt(dx² + dy²)) > threshold` over the deviations from the
mean position; for the nonnegative configured threshold this equals some
squared deviation exceeding `threshold²` (`max l > t` iff some element
exceeds `t`, and `sqrt` is monotone), which keeps the test exact over `ℚ`. -/
def has_moved_significantly (distance_threshold : ℚ)
    (positions : List (Int × Int)) : Bool :=
  if positions.length < 2 then false
  else
    let avg_x : ℚ := meanQ (positions.map (fun pos => (pos.1 : ℚ)))
    let avg_y : ℚ := meanQ (positions.map (fun pos => (pos.2 : ℚ)))
    positions.any (deviationExceeds avg_x avg_y distance_threshold)

/-- The loop state of `LoiteringDetector.detect`: accumulated events, the
`current_person_ids` set, and the detector state. -/
structure LAcc where
  events : List LoiteringEvent
  current_person_ids : List Nat
  st : LoiteringState
deriving Repr, DecidableEq

/-- `history['positions'][-100:]` when more than 100 positions are kept. -/
def capPositions (positions0 : List (Int × Int)) : List (Int × Int) :=
  if positions0.length > 100 then positions0.drop (positions0.length - 100)
  else positions0

/-- The body of the person loop of `LoiteringDetector.detect`: a new person
gets a fresh history entry (and nothing else); a known person's history is
extended (positions capped to the last 100), and a `LOITERING` event fires —
entering the id into `active_loitering` — only when the time since
`first_seen` reaches the threshold, the person has not moved significantly,
and the id is not already in `active_loitering`. -/
def loiterStep (threshold_seconds distance_threshold timestamp : ℚ)
    (acc : LAcc) (person : PersonObs) : LAcc :=
  let current := if person.id ∈ acc.current_person_ids then
      acc.current_person_ids else acc.current_person_ids ++ [person.id]
  match dget acc.st.person_history person.id with
  | none =>
      ⟨acc.events, current,
       ⟨dset acc.st.person_history person.id
          ⟨timestamp, [person.center], person.center, timestamp⟩,
        acc.st.active_loitering⟩⟩
  | some history =>
      let positions := capPositions (history.positions ++ [person.center])
      let st1 : LoiteringState :=
        ⟨dset acc.st.person_history person.id
          ⟨history.first_seen, positions, person.center, timestamp⟩,
         acc.st.active_loitering⟩
      let time_spent := timestamp - history.first_seen
      if time_spent ≥ threshold_seconds
          ∧ has_moved_significantly distance_threshold positions = false
          ∧ dcontains acc.st.active_loitering person.id = false then
        ⟨acc.events ++ [(⟨"LOITERING", person.id⟩ : LoiteringEvent)], current,
         ⟨st1.person_history, dset st1.active_loitering person.id timestamp⟩⟩
      else ⟨acc.events, current, st1⟩

/-- `LoiteringDetector.detect(persons, timestamp)`: runs the person loop,
then removes every person unseen in this call whose last update is more than
5 seconds old from both `person_history` and `active_loitering`. -/
def LoiteringDetector.detect (threshold_seconds distance_threshold : ℚ)
    (persons : List PersonObs) (timestamp : ℚ) (s : LoiteringState) :
    List LoiteringEvent × LoiteringState :=
  let acc := persons.foldl
    (loiterStep threshold_seconds distance_threshold timestamp)
    ⟨[], [], s⟩
  let to_remove := (dkeys acc.st.person_history).filter (fun pid =>
    decide (pid ∉ acc.current_person_ids)
      && decide (timestamp
        - ((dget acc.st.person_history pid).getD default).last_update > 5))
  (acc.events,
   to_remove.foldl (fun st pid =>
     (⟨ddel st.person_history pid, ddel st.active_loitering pid⟩ :
       LoiteringState)) acc.st)

lemma loiterStep_active_mono {thr dthr ts : ℚ} {acc : LAcc}
    (person : PersonObs) {k : Nat}
    (h : k ∈ dkeys acc.st.active_loitering) :
    k ∈ dkeys (loiterStep thr dthr ts acc person).st.active_loitering := by
  rw [loiterStep]
  rcases hget : dget acc.st.person_history person.id with _ | history
  · exact h
  · dsimp only
    by_cases hcond : ts - history.first_seen ≥ thr
        ∧ has_moved_significantly dthr
          (capPositions (history.positions ++ [person.center])) = false
        ∧ dcontains acc.st.active_loitering person.id = false
    · rw [if_pos hcond]
      exact (mem_dkeys_dset _ _ _ _).2 (Or.inl h)
    · rw [if_neg hcond]
      exact h

lemma loiterStep_events {thr dthr ts : ℚ} {acc : LAcc} (person : PersonObs)
    {pid : Nat} (hk : pid ∈ dkeys acc.st.active_loitering) :
    ∀ e ∈ (loiterStep thr dthr ts acc person).events,
      e ∈ acc.events ∨ e.person_id ≠ pid := by
  intro e he
  rw [loiterStep] at he
  rcases hget : dget acc.st.person_history person.id with _ | history <;>
    rw [hget] at he
  · exact Or.inl he
  · dsimp only at he
    by_cases hcond : ts - history.first_seen ≥ thr
        ∧ has_moved_significantly dthr
          (capPositions (history.positions ++ [person.center])) = false
        ∧ dcontains acc.st.active_loitering person.id = false
    · rw [if_pos hcond] at he
      rcases List.mem_append.1 he with he | he
      · exact Or.inl he
      · right
        rw [List.mem_singleton] at he
        subst he
        intro hpe
        have hpe' : person.id = pid := hpe
        have hc : dcontains acc.st.active_loitering person.id = true :=
          (dcontains_iff_mem_dkeys _ _).2 (hpe' ▸ hk)
        rw [hcond.2.2] at hc
        exact Bool.false_ne_true hc
    · rw [if_neg hcond] at he
      exact Or.inl he

lemma loiterStep_current_mono {thr dthr ts : ℚ} {acc : LAcc}
    (person : PersonObs) :
    (∀ x ∈ acc.current_person_ids,
        x ∈ (loiterStep thr dthr ts acc person).current_person_ids)
      ∧ person.id ∈ (loiterStep thr dthr ts acc person).current_person_ids := by
  have hcur : ∀ x, x ∈ acc.current_person_ids ∨ x = person.id →
      x ∈ (if person.id ∈ acc.current_person_ids then acc.current_person_ids
          else acc.current_person_ids ++ [person.id]) := by
    intro x hx
    exact (mem_insert_list acc.current_person_ids person.id x).2 hx
  rw [loiterStep]
  rcases hget : dget acc.st.person_history person.id with _ | history
  · exact ⟨fun x hx => hcur x (Or.inl hx), hcur person.id (Or.inr rfl)⟩
  · dsimp only
    by_cases hcond : ts - history.first_seen ≥ thr
        ∧ has_moved_significantly dthr
          (capPositions (history.positions ++ [person.center])) = false
        ∧ dcontains acc.st.active_loitering person.id = false
    · rw [if_pos hcond]
      exact ⟨fun x hx => hcur x (Or.inl hx), hcur person.id (Or.inr rfl)⟩
    · rw [if_neg hcond]
      exact ⟨fun x hx => hcur x (Or.inl hx), hcur person.id (Or.inr rfl)⟩

lemma loiter_foldl_inv (thr dthr ts : ℚ) (pid : Nat) :
    ∀ (persons : List PersonObs) (acc : LAcc),
      pid ∈ dkeys acc.st.active_loitering →
      (∀ e ∈ acc.events, e.person_id ≠ pid) →
      pid ∈ dkeys ((persons.foldl (loiterStep thr dthr ts)
          acc).st.active_loitering)
        ∧ (∀ e ∈ (persons.foldl (loiterStep thr dthr ts) acc).events,
            e.person_id ≠ pid) := by
  intro persons
  induction persons with
  | nil => intro acc h1 h2; exact ⟨h1, h2⟩
  | cons person rest ih =>
      intro acc h1 h2
      simp only [List.foldl_cons]
      refine ih _ (loiterStep_active_mono person h1) ?_
      intro e he
      rcases loiterStep_events person h1 e he with he' | he'
      · exact h2 e he'
      · exact he'

lemma loiter_foldl_current (thr dthr ts : ℚ) (pid : Nat) :
    ∀ (persons : List PersonObs) (acc : LAcc),
      ((∃ person ∈ persons, person.id = pid)
        ∨ pid ∈ acc.current_person_ids) →
      pid ∈ (persons.foldl (loiterStep thr dthr ts) acc).current_person_ids := by
  intro persons
  induction persons with
  | nil =>
      intro acc h
      rcases h with ⟨person, hmem, _⟩ | h
      · exact absurd hmem (List.not_mem_nil person)
      · exact h
  | cons person rest ih =>
      intro acc h
      simp only [List.foldl_cons]
      rcases h with ⟨q, hmem, hq⟩ | h
      · rcases List.mem_cons.1 hmem with rfl | hmem'
        · exact ih _ (Or.inr (hq ▸ (loiterStep_current_mono q).2))
        · exact ih _ (Or.inl ⟨q, hmem', hq⟩)
      · exact ih _ (Or.inr ((loiterStep_current_mono person).1 pid h))

lemma loiter_cleanup_keeps {pid : Nat} :
    ∀ (rem : List Nat) (st : LoiteringState),
      pid ∈ dkeys st.active_loitering → pid ∉ rem →
      pid ∈ dkeys ((rem.foldl (fun st r =>
        (⟨ddel st.person_history r, ddel st.active_loitering r⟩ :
          LoiteringState)) st).active_loitering) := by
  intro rem
  induction rem with
  | nil => intro st h _; exact h
  | cons r rest ih =>
      intro st h hnot
      simp only [List.foldl_cons]
      refine ih _ ?_ (fun hmem => hnot (List.mem_cons_of_mem _ hmem))
      exact mem_dkeys_ddel.2 ⟨h, fun he =>
        hnot (he ▸ List.mem_cons_self r rest)⟩

/-- C3 amended: while a person for whom a loitering event has fired remains
visible (their id appears in the `persons` argument), `detect` never removes
their id from `active_loitering` — significant movement does not reset the
active-loitering state — and no further `LOITERING` event is emitted for
that id; the state is cleared only by the cleanup for persons unseen for
more than 5 seconds. -/
theorem active_loitering_persists_while_visible
    (thr dthr : ℚ) (persons : List PersonObs) (ts : ℚ)
    (s : LoiteringState) (pid : Nat)
    (hact : pid ∈ dkeys s.active_loitering)
    (hvis : ∃ person ∈ persons, person.id = pid) :
    pid ∈ dkeys
        (LoiteringDetector.detect thr dthr persons ts s).2.active_loitering
      ∧ ∀ e ∈ (LoiteringDetector.detect thr dthr persons ts s).1,
          e.person_id ≠ pid := by
  obtain ⟨hstill, hev⟩ := loiter_foldl_inv thr dthr ts pid persons
    ⟨[], [], s⟩ hact (fun e he => absurd he (List.not_mem_nil e))
  have hcur := loiter_foldl_current thr dthr ts pid persons
    ⟨[], [], s⟩ (Or.inl hvis)
  refine ⟨?_, hev⟩
  apply loiter_cleanup_keeps _ _ hstill
  intro hmem
  have := (List.mem_filter.1 hmem).2
  rw [Bool.and_eq_true, decide_eq_true_eq] at this
  exact this.1 hcur

lemma c3_call2 :
    LoiteringDetector.detect 30 50 [⟨0, (0, 0), ⟨0, 0, 0, 0⟩⟩] 30
        ⟨[(0, ⟨0, [(0, 0)], (0, 0), 0⟩)], []⟩
      = ([(⟨"LOITERING", 0⟩ : LoiteringEvent)],
         ⟨[(0, ⟨0, [(0, 0), (0, 0)], (0, 0), 30⟩)], [(0, 30)]⟩) := by
  norm_num [LoiteringDetector.detect, loiterStep, capPositions,
    has_moved_significantly, deviationExceeds, meanQ, dget, dset, dcontains,
    dkeys, ddel, List.filter, List.find?]

lemma c3_call1 :
    LoiteringDetector.detect 30 50 [⟨0, (0, 0), ⟨0, 0, 0, 0⟩⟩] 0
        ⟨[], []⟩
      = ([], ⟨[(0, ⟨0, [(0, 0)], (0, 0), 0⟩)], []⟩) := by
  norm_num [LoiteringDetector.detect, loiterStep, dget, dset, dcontains,
    dkeys, ddel, List.filter, List.find?]

lemma c3_call3 :
    LoiteringDetector.detect 30 50 [⟨0, (200, 0), ⟨0, 0, 0, 0⟩⟩] 31
        ⟨[(0, ⟨0, [(0, 0), (0, 0)], (0, 0), 30⟩)], [(0, 30)]⟩
      = ([], ⟨[(0, ⟨0, [(0, 0), (0, 0), (200, 0)], (200, 0), 31⟩)],
          [(0, 30)]⟩) := by
  norm_num [LoiteringDetector.detect, loiterStep, capPositions,
    has_moved_significantly, deviationExceeds, meanQ, dget, dset, dcontains,
    dkeys, ddel, List.filter, List.find?]

/-- C3 counterexample: person 0 is stationary at `(0, 0)` from second 0, a
`LOITERING` event fires at second 30, and at second 31 the person jumps to
`(200, 0)` while remaining visible — the retained positions then deviate
more than 50 px from their mean (`_has_moved_significantly` is true) — yet
the active-loitering entry for id 0 survives the call unchanged (timestamp
still 30): the state is not reset and no fresh 30-second timer is started. -/
theorem loitering_state_not_reset_on_movement :
    (LoiteringDetector.detect 30 50 [⟨0, (0, 0), ⟨0, 0, 0, 0⟩⟩] 0
        ⟨[], []⟩).2
      = ⟨[(0, ⟨0, [(0, 0)], (0, 0), 0⟩)], []⟩
    ∧ (LoiteringDetector.detect 30 50 [⟨0, (0, 0), ⟨0, 0, 0, 0⟩⟩] 30
        (LoiteringDetector.detect 30 50 [⟨0, (0, 0), ⟨0, 0, 0, 0⟩⟩] 0
          ⟨[], []⟩).2).1
      = [(⟨"LOITERING", 0⟩ : LoiteringEvent)]
    ∧ has_moved_significantly 50 [(0, 0), (0, 0), (200, 0)] = true
    ∧ (LoiteringDetector.detect 30 50 [⟨0, (200, 0), ⟨0, 0, 0, 0⟩⟩] 31
        (LoiteringDetector.detect 30 50 [⟨0, (0, 0), ⟨0, 0, 0, 0⟩⟩] 30
          (LoiteringDetector.detect 30 50 [⟨0, (0, 0), ⟨0, 0, 0, 0⟩⟩] 0
            ⟨[], []⟩).2).2).2.active_loitering
      = [(0, 30)] := by
  refine ⟨congrArg Prod.snd c3_call1, ?_, ?_, ?_⟩
  · rw [congrArg Prod.snd c3_call1, congrArg Prod.fst c3_call2]
  · norm_num [has_moved_significantly, deviationExceeds, meanQ]
  · rw [congrArg Prod.snd c3_call1, congrArg Prod.snd c3_call2,
      congrArg Prod.snd c3_call3]

/-- Witness for the amended C3 theorem: person 0 is in `active_loitering`
and visible, and indeed survives the call emitting no event. -/
theorem active_loitering_persists_witness :
    0 ∈ dkeys ((⟨[(0, ⟨0, [(0, 0), (0, 0)], (0, 0), 30⟩)], [(0, 30)]⟩ :
        LoiteringState)).active_loitering
      ∧ 0 ∈ dkeys (LoiteringDetector.detect 30 50
          [⟨0, (200, 0), ⟨0, 0, 0, 0⟩⟩] 31
          ⟨[(0, ⟨0, [(0, 0), (0, 0)], (0, 0), 30⟩)],
           [(0, 30)]⟩).2.active_loitering := by
  have h := active_loitering_persists_while_visible 30 50
    [⟨0, (200, 0), ⟨0, 0, 0, 0⟩⟩] 31
    ⟨[(0, ⟨0, [(0, 0), (0, 0)], (0, 0), 30⟩)], [(0, 30)]⟩ 0
    (by decide) ⟨⟨0, (200, 0), ⟨0, 0, 0, 0⟩⟩, List.mem_cons_self _ _, rfl⟩
  exact ⟨by decide, h.1⟩

end Surveillance
